import Mathlib

/-!
# Verification of the MilashkaAI RAG pipeline specification

Shallow embedding of the core RAG pipeline of the MilashkaAI server:

* the chunker `chunk_text` and the text-mode layout parser
  (`app/core/rag_builder.py`, `app/core/spacy_components.py`),
* the component extractor `extract_components` (`app/core/rag_builder.py`),
* the graph store with the node/relationship tables created by
  `KuzuDBClient.connect` (`app/db/kuzudb_client.py`),
* the graph builder `build_rag_graph_from_text` and `reindex_document`
  (`app/core/rag_builder.py`),
* the document deletion route `delete_document` (`app/routers/documents.py`),
* the retriever `retrieve_relevant_chunks` (`app/core/rag_retriever.py`).

Python strings are modelled as `List Char` with character offsets (matching
Python's code-point indexing).  The spaCy linguistic models (sentence
segmentation, token attributes, named entities) and the embedding pipeline are
external collaborators and are passed in as oracle parameters; every other part
is translated directly from the source.  Floating point vectors are modelled
over `ℚ`; the graph store's `ORDER BY` on the cosine-distance expression is
modelled as a stable sort on the equivalent exact key (see `simKey`).
-/

/-! ## Python string primitives over `List Char` -/

/-- Python strings as lists of code points. -/
abbrev PyStr := List Char

/-- Python `\s` / `str.strip()` whitespace (ASCII range, which covers all texts
handled here). -/
def isPySpace (c : Char) : Bool :=
  c = ' ' || c = '\t' || c = '\n' || c = '\r' || c = '\x0b' || c = '\x0c'

/-- Python `str.strip()`. -/
def pyStrip (s : PyStr) : PyStr :=
  ((s.dropWhile isPySpace).reverse.dropWhile isPySpace).reverse

/-- Helper for `pyWordCount`: counts maximal non-whitespace runs, tracking
whether the scan is currently inside a word. -/
def pyWordCountGo : PyStr → Bool → Nat
  | [], _ => 0
  | c :: rest, inWord =>
    if isPySpace c then pyWordCountGo rest false
    else (if inWord then 0 else 1) + pyWordCountGo rest true

/-- `len(s.split())` in Python: number of whitespace-separated words. -/
def pyWordCount (s : PyStr) : Nat := pyWordCountGo s false

/-- Position of the first occurrence of `pat` in `h` (`0`-based), if any. -/
def firstMatchPos (pat : PyStr) : PyStr → Option Nat
  | [] => if pat.isPrefixOf ([] : PyStr) then some 0 else none
  | c :: t =>
    if pat.isPrefixOf (c :: t) then some 0
    else (firstMatchPos pat t).map (· + 1)

/-- Python `haystack.find(pat, start)` for a non-negative `start`, returning
`-1` when `pat` does not occur at or after `start`. -/
def pyFindFromNat (hay pat : PyStr) (start : Nat) : Int :=
  if start > hay.length then -1
  else
    match firstMatchPos pat (hay.drop start) with
    | some j => (start + j : Nat)
    | none => -1

/-- Python `haystack.find(pat, start)` with Python's negative-index handling. -/
def pyFindFrom (hay pat : PyStr) (start : Int) : Int :=
  pyFindFromNat hay pat (if start < 0 then (start + hay.length).toNat else start.toNat)

/-- Clamp a Python slice index to an actual list position. -/
def pySliceIx (n : Nat) (i : Int) : Nat :=
  if i < 0 then (i + n).toNat else min i.toNat n

/-- Python `s[a:b]` (with negative-index wrapping and clamping). -/
def pySlice (s : PyStr) (a b : Int) : PyStr :=
  (s.take (pySliceIx s.length b)).drop (pySliceIx s.length a)

/-- Python `pat in s` (substring containment). -/
def pyContains (s pat : PyStr) : Bool := (firstMatchPos pat s).isSome

/-- Python `str.lower()` (ASCII range). -/
def pyLower (s : PyStr) : PyStr := s.map Char.toLower

/-! ## The regular expressions used by the chunker

`chunk_text` uses `^\d+\.\s+[A-Z][A-Za-z\s]+` for headers and
`^\d+\.\s|^[\|\*\-]\s` for list items; the text-mode layout parser uses
`^\d+\.\s*` for numbered list prefixes.  All are anchored at the start and
deterministic (no backtracking is ever needed), so they are translated into
direct prefix matchers. -/

/-- ASCII decimal digit (`\d`). -/
def isReDigit (c : Char) : Bool := '0' ≤ c && c ≤ '9'

/-- `[A-Z]`. -/
def isReUpper (c : Char) : Bool := 'A' ≤ c && c ≤ 'Z'

/-- `[A-Za-z\s]`. -/
def isReAlphaSpace (c : Char) : Bool :=
  ('A' ≤ c && c ≤ 'Z') || ('a' ≤ c && c ≤ 'z') || isPySpace c

/-- `re.match(r'^\d+\.\s+[A-Z][A-Za-z\s]+', s)` as a Boolean. -/
def reMatchHeader (s : PyStr) : Bool :=
  let d := s.takeWhile isReDigit
  if d.isEmpty then false
  else
    match s.drop d.length with
    | '.' :: rest =>
      let sp := rest.takeWhile isPySpace
      if sp.isEmpty then false
      else
        match rest.drop sp.length with
        | c :: rest2 => isReUpper c && !(rest2.takeWhile isReAlphaSpace).isEmpty
        | [] => false
    | _ => false

/-- `re.match(r'^\d+\.\s|^[\|\*\-]\s', s)` as a Boolean. -/
def reMatchListItem (s : PyStr) : Bool :=
  (let d := s.takeWhile isReDigit
   !d.isEmpty &&
     (match s.drop d.length with
      | '.' :: c :: _ => isPySpace c
      | _ => false)) ||
  (match s with
   | c :: c2 :: _ => (c = '|' || c = '*' || c = '-') && isPySpace c2
   | _ => false)

/-- Length of the match of `re.match(r'^\d+\.\s*', s)`, if it matches. -/
def numberedLen (s : PyStr) : Option Nat :=
  let d := s.takeWhile isReDigit
  if d.isEmpty then none
  else
    match s.drop d.length with
    | '.' :: rest => some (d.length + 1 + (rest.takeWhile isPySpace).length)
    | _ => none

/-- `re.sub(r'^\d+\.\s*', '', s)`: the pattern is anchored, so substitution
just removes the numbered marker at the start, if present. -/
def stripNumbering (s : PyStr) : PyStr :=
  match numberedLen s with
  | some n => s.drop n
  | none => s

/-! ## `re.split` over the two separator patterns

`gsplitAux` scans the text left to right; a separator callback reports, for a
head character and the rest of the input, how many **further** characters the
(leftmost, greedy) separator match consumes.  The fuel argument is the input
length, so the fuel-exhausted branch is unreachable; it is defined so that the
segment-occurrence lemmas hold unconditionally. -/

/-- Generic splitter core (see module section comment). -/
def gsplitAux (sep : Char → PyStr → Option Nat) : Nat → PyStr → PyStr → List PyStr
  | _, [], acc => [acc.reverse]
  | 0, s, acc => [acc.reverse ++ s]
  | fuel + 1, c :: rest, acc =>
    match sep c rest with
    | some n => acc.reverse :: gsplitAux sep fuel (rest.drop n) []
    | none => gsplitAux sep fuel rest (c :: acc)

/-- `re.split` with separator callback `sep` (keeps empty segments, exactly as
Python's `re.split` does). -/
def gsplit (sep : Char → PyStr → Option Nat) (s : PyStr) : List PyStr :=
  gsplitAux sep s.length s []

/-- Separator of `re.split(r'\n{2,}', ...)`: at least two newlines, matched
greedily. -/
def sepBlankLines (c : Char) (rest : PyStr) : Option Nat :=
  if c = '\n' then
    let k := (rest.takeWhile (· = '\n')).length
    if k ≥ 1 then some k else none
  else none

/-- Separator of `re.split(r'\n+|\.\s+', ...)` used by the text-mode layout
parser: a greedy newline run, or a period followed by greedy whitespace. -/
def sepLayout (c : Char) (rest : PyStr) : Option Nat :=
  if c = '\n' then some (rest.takeWhile (· = '\n')).length
  else if c = '.' then
    let k := (rest.takeWhile isPySpace).length
    if k ≥ 1 then some k else none
  else none

/-- `re.sub(r'\n+', '\n', s)`: collapse newline runs. -/
def collapseNewlineRuns : PyStr → PyStr
  | [] => []
  | [c] => [c]
  | c :: d :: rest =>
    if c = '\n' && d = '\n' then collapseNewlineRuns (d :: rest)
    else c :: collapseNewlineRuns (d :: rest)

/-! ## The chunker

`chunk_text(text, strategy="layout", max_chunk_size=512)` in
`app/core/rag_builder.py`.  The deployed call path is the non-PDF one with the
`layout_parser` pipe installed, so the segmentation is: the pure text branch of
`layout_parser` (`app/core/spacy_components.py`), falling back to the
blank-line paragraph split when it yields no chunks.  The only genuinely
linguistic ingredient is spaCy's sentence segmenter used to re-split oversized
paragraphs; it enters as the oracle parameter `sents`. -/

/-- One chunk as handled by `chunk_text`: `(text, start, end, type)`.  Python's
`end` is a reserved word in Lean, hence `stop`. -/
structure RawChunk where
  text : PyStr
  start : Int
  stop : Int
  ctype : String
  deriving Repr, DecidableEq

/-- The element list built by the text branch of `layout_parser`
(`spacy_components.py`): split on `\n+|\.\s+`, strip, drop empties; a segment
matching `^\d+\.\s*` becomes a `list_item` with the marker removed, anything
else a `paragraph`. -/
def layoutElements (text : PyStr) : List (String × PyStr) :=
  (((gsplit sepLayout text).map pyStrip).filter (fun p => !p.isEmpty)).map
    (fun p =>
      if (numberedLen p).isSome then ("list_item", stripNumbering p)
      else ("paragraph", p))

/-- The layout branch of `chunk_text`: re-strip each element text, skip
empties, classify, and locate the chunk with `text.find` (the elements carry
no `start` key, so `e.get('start', text.find(chunk_text))` always falls back
to the find). -/
def layoutChunks (text : PyStr) : List RawChunk :=
  (layoutElements text).filterMap (fun e =>
    let c := pyStrip e.2
    if c.isEmpty then none
    else
      let cty :=
        if e.1 = "list_item" || reMatchListItem c then "list_item"
        else if reMatchHeader c then "header"
        else "paragraph"
      let start := pyFindFrom text c 0
      some { text := c, start := start, stop := start + c.length, ctype := cty })

/-- Structural type in the paragraph branch of `chunk_text` (header pattern is
tested first there). -/
def paraType (c : PyStr) : String :=
  if reMatchHeader c then "header"
  else if reMatchListItem c then "list_item"
  else "paragraph"

/-- The paragraph branch's loop over the stripped blank-line segments,
carrying `last_end` through `text.find(c, last_end)`. -/
def paraGo (text : PyStr) : List PyStr → Int → List RawChunk
  | [], _ => []
  | c :: rest, lastEnd =>
    let start := pyFindFrom text c lastEnd
    let stop := start + c.length
    { text := c, start := start, stop := stop, ctype := paraType c } ::
      paraGo text rest stop

/-- The paragraph branch of `chunk_text`: split on blank lines (`\n{2,}`),
strip, drop empties, then locate each chunk from the previous chunk's end. -/
def paraChunks (text : PyStr) : List RawChunk :=
  paraGo text (((gsplit sepBlankLines text).map pyStrip).filter (fun c => !c.isEmpty)) 0

/-- The chunk list before the filter/refine loop: the layout branch, or the
paragraph branch when it produced no chunks (`if strategy == "paragraph" or
not chunks`). -/
def segmentChunks (text : PyStr) : List RawChunk :=
  let lc := layoutChunks text
  if lc.isEmpty then paraChunks text else lc

/-- The sentence-accumulation loop splitting an oversized paragraph
(`current_chunk += " " + sent`, flushing with `current_chunk.strip()` and
advancing `start += len(current_chunk) + 1`). -/
def splitLargeGo (maxCS : Nat) : List PyStr → PyStr → Int → List RawChunk
  | [], current, start =>
    if (pyStrip current).isEmpty then []
    else [{ text := pyStrip current, start := start,
            stop := start + current.length, ctype := "paragraph" }]
  | sent :: rest, current, start =>
    if current.length + sent.length ≤ maxCS then
      splitLargeGo maxCS rest (current ++ ' ' :: sent) start
    else if (pyStrip current).isEmpty then
      splitLargeGo maxCS rest sent start
    else
      { text := pyStrip current, start := start,
        stop := start + current.length, ctype := "paragraph" } ::
        splitLargeGo maxCS rest sent (start + current.length + 1)

/-- Re-split one oversized paragraph chunk at the sentence boundaries reported
by the spaCy oracle `sents` (the code strips each `sent.text` and drops
empties before accumulating). -/
def splitLarge (sents : PyStr → List PyStr) (maxCS : Nat) (ch : RawChunk) : List RawChunk :=
  splitLargeGo maxCS (((sents ch.text).map pyStrip).filter (fun s => !s.isEmpty)) [] ch.start

/-- One iteration of the filter/refine loop of `chunk_text`: drop short chunks
that are neither list items nor headers; re-split oversized paragraphs; pass
everything else through. -/
def refineOne (sents : PyStr → List PyStr) (maxCS : Nat) (ch : RawChunk) : List RawChunk :=
  if pyWordCount ch.text < 5 && !(ch.ctype = "list_item" || ch.ctype = "header") then []
  else if ch.text.length > maxCS && ch.ctype = "paragraph" then
    splitLarge sents maxCS ch
  else [ch]

/-- `chunk_text(text)` for plain text input under the deployed configuration
(layout strategy, models loaded): segmentation followed by the filter/refine
loop. -/
def chunkText (sents : PyStr → List PyStr) (text : PyStr) (maxCS : Nat := 512) :
    List RawChunk :=
  ((segmentChunks text).map (refineOne sents maxCS)).flatten

/-! ## The component extractor

`extract_components(doc, doc_id, lang, chunks_with_info)` in
`app/core/rag_builder.py`.  The spaCy analysis of a piece of text (tokens with
lemma / POS-tag / dependency / entity-type / subtree, sentence boundaries,
document-level entities) is an external collaborator, supplied as the oracle
record `NlpOracle`.  Everything else — the header/section state machine, the
requirement and component id assignment, the elif-cascade over tokens — is a
direct translation. -/

/-- One spaCy token as consumed by the extractor: surface text, lemma,
POS tag, dependency label, entity type (empty string when absent) and the
surface texts of the token's subtree. -/
structure Tok where
  text : PyStr
  lemmaText : PyStr
  pos : String
  dep : String
  entType : String
  subtreeTexts : List PyStr
  deriving Repr, DecidableEq

/-- The linguistic oracles: sentence segmentation (`doc.sents`) and
tokenisation-with-annotations (`nlp(text)` plus per-token attributes), plus
the document-level named entities `doc.ents` as (label, surface) pairs. -/
structure NlpOracle where
  sents : PyStr → List PyStr
  tokens : PyStr → List Tok
  ents : List (String × PyStr)

/-- `is_requirement_sentence(sent, lang)`: a modal/obligation verb lemma with
POS tag `VERB`. -/
def isRequirementSentence (toks : List Tok) (lang : String) : Bool :=
  let modalVerbs : List PyStr :=
    if lang = "en" then
      ["shall".toList, "must".toList, "should".toList, "will".toList,
       "need".toList, "require".toList, "obligate".toList, "have".toList]
    else
      ["должен".toList, "должна".toList, "должно".toList, "следует".toList,
       "нужно".toList, "обязан".toList, "требуется".toList]
  toks.any (fun t => modalVerbs.contains (pyLower t.lemmaText) && t.pos = "VERB")

/-- Nodes collected into `components["actors"|"actions"|"objects"]`. -/
structure CompNode where
  id : String
  name : PyStr
  description : PyStr
  deriving Repr, DecidableEq

/-- Nodes collected into `components["results"]`. -/
structure ResultNode where
  id : String
  description : PyStr
  deriving Repr, DecidableEq

/-- Entries of `components["entities"]`. -/
structure EntityDraft where
  entity_id : String
  etype : String
  name : PyStr
  deriving Repr, DecidableEq

/-- One requirement dict built by the extractor; the optional role fields are
the `req["actor"]` etc. ids set by the token loop. -/
structure ReqDraft where
  req_id : String
  rtype : String
  description : PyStr
  chunk_id : String
  sectionName : PyStr
  actor : Option String := none
  action : Option String := none
  obj : Option String := none
  result : Option String := none
  deriving Repr, DecidableEq

/-- The extractor's running state: the ambient section and requirement type
plus the component lists being accumulated (ids are derived from the current
list lengths, exactly as in the source). -/
structure ExtractState where
  currentSection : PyStr
  reqType : String
  requirements : List ReqDraft
  actors : List CompNode
  actions : List CompNode
  objects : List CompNode
  results : List ResultNode
  deriving Repr, DecidableEq

/-- `f"{prefix}_{doc_id}_{n}"` with the id kind passed explicitly. -/
def mkComponentId (kind doc_id : String) (n : Nat) : String :=
  kind ++ "_" ++ doc_id ++ "_" ++ toString n

/-- `f"{doc_id}_chunk_{idx}"`. -/
def mkChunkId (doc_id : String) (idx : Nat) : String :=
  doc_id ++ "_chunk_" ++ toString idx

/-- The actor vocabulary of the token loop. -/
def actorVocab : List PyStr :=
  ["system".toList, "user".toList, "citizen".toList, "police".toList,
   "admin".toList, "constable".toList]

/-- The purpose/result prepositions of the token loop. -/
def resultPreps (lang : String) : List PyStr :=
  if lang = "en" then ["for".toList, "to".toList, "with".toList]
  else ["для".toList, "к".toList, "с".toList]

/-- One iteration of the elif-cascade over the tokens of a requirement
sentence, extending the component lists and (re)setting the requirement's role
ids.  In the source the requirement dict is appended before this loop and
mutated in place; here the fully updated draft is appended afterwards, which
yields the same final state. -/
def roleStep (lang doc_id : String) (s : ExtractState × ReqDraft) (t : Tok) :
    ExtractState × ReqDraft :=
  let (st, rq) := s
  if t.dep = "nsubj" && (t.entType ≠ "" || actorVocab.contains (pyLower t.text)) then
    let aid := mkComponentId "actor" doc_id st.actors.length
    ({ st with actors := st.actors ++
        [{ id := aid, name := t.text, description := "Role: ".toList ++ t.text }] },
     { rq with actor := some aid })
  else if t.pos = "VERB" && t.dep = "ROOT" then
    let aid := mkComponentId "action" doc_id st.actions.length
    ({ st with actions := st.actions ++
        [{ id := aid, name := t.text, description := "Action: ".toList ++ t.text }] },
     { rq with action := some aid })
  else if t.dep = "dobj" && (t.pos = "NOUN" || t.pos = "PROPN") then
    let oid := mkComponentId "object" doc_id st.objects.length
    ({ st with objects := st.objects ++
        [{ id := oid, name := t.text, description := "Object: ".toList ++ t.text }] },
     { rq with obj := some oid })
  else if t.dep = "prep" && (resultPreps lang).contains (pyLower t.text) then
    let rid := mkComponentId "result" doc_id st.results.length
    let resultText := List.intercalate " ".toList t.subtreeTexts
    ({ st with results := st.results ++
        [{ id := rid, description := "Expected result: ".toList ++ resultText }] },
     { rq with result := some rid })
  else s

/-- The functional-section keyword allowlist. -/
def functionalKeywords : List PyStr :=
  ["functional".toList, "feature".toList, "interface".toList,
   "registration".toList, "investigation".toList, "prosecution".toList,
   "search".toList, "citizen".toList, "navigation".toList,
   "configuration".toList]

/-- Build one requirement from candidate text `reqText` inside chunk
`chunkId`: append the requirement (numbered by the current requirement count)
and run the token cascade over `toks`. -/
def addRequirement (lang doc_id : String) (st : ExtractState) (reqText : PyStr)
    (chunkId : String) (toks : List Tok) : ExtractState :=
  let reqId := mkComponentId "req" doc_id st.requirements.length
  let draft : ReqDraft :=
    { req_id := reqId, rtype := st.reqType, description := reqText,
      chunk_id := chunkId, sectionName := st.currentSection }
  let (st', draft') := toks.foldl (roleStep lang doc_id) (st, draft)
  { st' with requirements := st'.requirements ++ [draft'] }

/-- Process one sentence of a paragraph chunk. -/
def processSentence (O : NlpOracle) (lang doc_id chunkId : String)
    (st : ExtractState) (sent : PyStr) : ExtractState :=
  let sentText := pyStrip sent
  if sentText.isEmpty then st
  else
    let toks := O.tokens sentText
    if isRequirementSentence toks lang || reMatchListItem sentText then
      addRequirement lang doc_id st sentText chunkId toks
    else st

/-- Process one `(idx, chunk)` pair of the extractor's main loop. -/
def processChunk (O : NlpOracle) (lang doc_id : String)
    (st : ExtractState) (p : Nat × RawChunk) : ExtractState :=
  let (idx, ch) := p
  let chunkId := mkChunkId doc_id idx
  if ch.ctype = "header" then
    let sec := pyLower (pyStrip ch.text)
    { st with
      currentSection := sec,
      reqType :=
        if functionalKeywords.any (fun kw => pyContains sec kw) then "functional"
        else "non-functional" }
  else if ch.ctype = "list_item" || reMatchListItem ch.text then
    let toks := O.tokens ch.text
    let reqText := pyStrip ch.text
    if isRequirementSentence toks lang || reMatchListItem reqText then
      addRequirement lang doc_id st reqText chunkId toks
    else st
  else if ch.ctype = "paragraph" then
    (O.sents ch.text).foldl (processSentence O lang doc_id chunkId) st
  else st

/-- The initial extractor state (`current_section = "unknown"`,
`req_type = "functional"`). -/
def initExtractState : ExtractState :=
  { currentSection := "unknown".toList, reqType := "functional",
    requirements := [], actors := [], actions := [], objects := [], results := [] }

/-- The full result of `extract_components` as consumed by the graph builder
(the `documents` self-entry of the dict is not persisted and is omitted). -/
structure Components where
  requirements : List ReqDraft
  actors : List CompNode
  actions : List CompNode
  objects : List CompNode
  results : List ResultNode
  entities : List EntityDraft
  deriving Repr, DecidableEq

/-- `extract_components(doc, doc_id, lang, chunks_with_info)`: the chunk loop
followed by document-level entity collection. -/
def extractComponents (O : NlpOracle) (lang doc_id : String)
    (chunks : List RawChunk) : Components :=
  let st := chunks.enum.foldl (processChunk O lang doc_id) initExtractState
  { requirements := st.requirements, actors := st.actors, actions := st.actions,
    objects := st.objects, results := st.results,
    entities := (O.ents.enum.map (fun p =>
      { entity_id := mkComponentId "ent" doc_id p.1,
        etype := p.2.1.toLower, name := p.2.2 })) }

/-! ## Vector similarity

The retriever's Cypher query orders candidate chunks by
`1.0 - dot(e, q) / (sqrt(dot(e, e)) * sqrt(dot(q, q)))` ascending, i.e. by
descending cosine similarity.  Embeddings are modelled over `ℚ`.  Since the
query vector `q` is shared by all candidates, the ordering induced by the
cosine similarity coincides (for positive norms) with the ordering induced by
the exact rational key `simKey q e = dot(q,e) * |dot(q,e)| / dot(e,e)`
(the map `x ↦ x * |x|` is strictly monotone and
`simKey q e = y * |y| * dot(q,q)` for `y = cos(q,e)`); the store's sort is
modelled as a stable insertion sort on that key. -/

/-- Dot product (`reduce(sum = 0.0, ... | sum + a[x] * b[x])` over the common
indices). -/
def dotQ (a b : List ℚ) : ℚ := (List.zipWith (· * ·) a b).sum

/-- Exact rational sort key equivalent to cosine similarity for a fixed query
vector (see section comment). -/
def simKey (q e : List ℚ) : ℚ := dotQ q e * |dotQ q e| / dotQ e e

/-- Descending order by a rational key: `a` may come before `b` iff
`f b ≤ f a`. -/
def keyOrder {α : Type} (f : α → ℚ) : α → α → Prop := fun a b => f b ≤ f a

instance {α : Type} (f : α → ℚ) : DecidableRel (keyOrder f) :=
  fun a b => inferInstanceAs (Decidable (f b ≤ f a))

instance {α : Type} (f : α → ℚ) : IsTotal α (keyOrder f) :=
  ⟨fun a b => le_total (f b) (f a)⟩

instance {α : Type} (f : α → ℚ) : IsTrans α (keyOrder f) :=
  ⟨fun _ _ _ h1 h2 => le_trans h2 h1⟩

/-- Real cosine similarity between two rational vectors, as computed by the
store's `ORDER BY` expression. -/
noncomputable def cosineSim (q e : List ℚ) : ℝ :=
  ((dotQ q e : ℚ) : ℝ) / (Real.sqrt ((dotQ q q : ℚ) : ℝ) * Real.sqrt ((dotQ e e : ℚ) : ℝ))

/-! ## The graph store

State model of the KùzuDB instance as used by this code base.  Node and
relationship tables follow the schema issued by `KuzuDBClient.connect`
(`app/db/kuzudb_client.py`); each node list carries the table's columns, and
primary-key violations on `CREATE` are modelled as errors, as KùzuDB raises
`Found duplicated primary key value`.

The `Document` table created by `KuzuDBClient.connect` has columns
`doc_id, filename, type, content, status, created_at, updated_at,
processed_at` — and **no** `error` column; the variant created by the
completion flow (`app/core/completion.py`) does have an `error` column.  Which
variant exists depends on which code path first initialised the database
file, so the store records it in `schemaHasError`; an `SET n.error = ...` on
the errorless variant is a binder error, as KùzuDB rejects properties absent
from the schema. -/

/-- Columns of the `Document` node table as created by
`KuzuDBClient.connect`. -/
def documentTableColumns : List String :=
  ["doc_id", "filename", "type", "content", "status", "created_at",
   "updated_at", "processed_at"]

/-- A `Document` node.  `error` is only a real column when the table was
created with the completion-flow schema (see `Store.schemaHasError`). -/
structure DocNode where
  doc_id : String
  filename : String
  status : String
  created_at : String
  updated_at : String
  processed_at : String
  error : Option String := none
  deriving Repr, DecidableEq

/-- A `Chunk` node (`chunk_id PK, doc_id, text, embedding FLOAT[]`). -/
structure ChunkNode where
  chunk_id : String
  doc_id : String
  text : PyStr
  embedding : Option (List ℚ)
  deriving Repr, DecidableEq

/-- A `Requirement` node. -/
structure ReqNode where
  req_id : String
  rtype : String
  description : PyStr
  created_at : String
  deriving Repr, DecidableEq

/-- An `Entity` node. -/
structure EntityNode where
  entity_id : String
  etype : String
  name : PyStr
  deriving Repr, DecidableEq

/-- A `UserInteraction` node. -/
structure UINode where
  id : String
  suggestion_text : PyStr
  user_reaction : PyStr
  date : String
  deriving Repr, DecidableEq

/-- The graph store.  Relationship tables are lists of
(source key, target key) pairs. -/
structure Store where
  schemaHasError : Bool
  documents : List DocNode
  chunks : List ChunkNode
  requirements : List ReqNode
  actors : List CompNode
  actions : List CompNode
  objects : List CompNode
  results : List ResultNode
  entities : List EntityNode
  userInteractions : List UINode
  containsEdges : List (String × String)
  describedByEdges : List (String × String)
  referencesEdges : List (String × String)
  performsEdges : List (String × String)
  commitsEdges : List (String × String)
  onWhatPerformedEdges : List (String × String)
  expectsEdges : List (String × String)
  describedInEdges : List (String × String)
  dependsOnEdges : List (String × String)
  linkedFeedbackEdges : List (String × String)
  deriving Repr, DecidableEq

/-- The empty store under the `KuzuDBClient.connect` schema. -/
def emptyStore : Store :=
  { schemaHasError := documentTableColumns.contains "error",
    documents := [], chunks := [], requirements := [], actors := [],
    actions := [], objects := [], results := [], entities := [],
    userInteractions := [], containsEdges := [], describedByEdges := [],
    referencesEdges := [], performsEdges := [], commitsEdges := [],
    onWhatPerformedEdges := [], expectsEdges := [], describedInEdges := [],
    dependsOnEdges := [], linkedFeedbackEdges := [] }

/-- Does a document with this key exist? -/
def Store.hasDoc (st : Store) (docId : String) : Bool :=
  st.documents.any (fun d => d.doc_id = docId)

/-- Does a chunk with this key exist? -/
def Store.hasChunk (st : Store) (chunkId : String) : Bool :=
  st.chunks.any (fun c => c.chunk_id = chunkId)

/-! ## Store operations used by the graph builder

Each Cypher statement issued by `build_rag_graph_from_text` becomes one state
operation.  `CREATE` on a node table checks the primary key (KùzuDB raises
`Found duplicated primary key value` otherwise); `MATCH ... CREATE` edge
statements insert the edge when both endpoints match and are no-ops
otherwise; `MERGE` and `SET` update in place. -/

/-- The `MERGE (d:Document {doc_id: ...}) ON CREATE SET ... ON MATCH SET ...`
statement opening a build: status becomes `processing`, `filename`,
`processed_at` and `updated_at` are (re)set, `created_at` only on create.
Neither branch touches `error`. -/
def mergeDocs (docId filename now : String) (docs : List DocNode) : List DocNode :=
  if docs.any (fun d => d.doc_id = docId) then
    docs.map (fun d =>
      if d.doc_id = docId then
        { d with filename := filename, processed_at := now,
                 status := "processing", updated_at := now }
      else d)
  else
    docs ++ [{ doc_id := docId, filename := filename, status := "processing",
               created_at := now, updated_at := now, processed_at := now,
               error := none }]

/-- The closing `MATCH (d:Document {doc_id}) SET d.status = 'indexed',
d.updated_at = $updated_at` statement. -/
def indexDocs (docId now : String) (docs : List DocNode) : List DocNode :=
  docs.map (fun d =>
    if d.doc_id = docId then { d with status := "indexed", updated_at := now }
    else d)

/-- The exception handler's `SET d.status = 'error', d.updated_at = ...,
d.error = $error_msg` statement.  On the `KuzuDBClient.connect` schema the
`Document` table has no `error` column, so the statement itself raises a
binder error. -/
def setDocErrorStatus (st : Store) (docId now msg : String) : Except String Store :=
  if st.schemaHasError then
    Except.ok { st with documents := st.documents.map (fun d =>
      if d.doc_id = docId then
        { d with status := "error", updated_at := now, error := some msg }
      else d) }
  else Except.error "Binder exception: Cannot find property error for d."

/-- `CREATE (c:Chunk {...})` with the primary-key check. -/
def createChunk (st : Store) (c : ChunkNode) : Except String Store :=
  if st.hasChunk c.chunk_id then
    Except.error ("Found duplicated primary key value " ++ c.chunk_id)
  else Except.ok { st with chunks := st.chunks ++ [c] }

/-- `MATCH (d:Document), (c:Chunk) CREATE (d)-[:Contains]->(c)`. -/
def addContains (st : Store) (docId chunkId : String) : Store :=
  if st.hasDoc docId && st.hasChunk chunkId then
    { st with containsEdges := st.containsEdges ++ [(docId, chunkId)] }
  else st

/-- `CREATE (a:Actor {...})` with the primary-key check. -/
def createActor (st : Store) (a : CompNode) : Except String Store :=
  if st.actors.any (fun x => x.id = a.id) then
    Except.error ("Found duplicated primary key value " ++ a.id)
  else Except.ok { st with actors := st.actors ++ [a] }

/-- `CREATE (a:Action {...})` with the primary-key check. -/
def createAction (st : Store) (a : CompNode) : Except String Store :=
  if st.actions.any (fun x => x.id = a.id) then
    Except.error ("Found duplicated primary key value " ++ a.id)
  else Except.ok { st with actions := st.actions ++ [a] }

/-- `CREATE (o:Object {...})` with the primary-key check. -/
def createObject (st : Store) (o : CompNode) : Except String Store :=
  if st.objects.any (fun x => x.id = o.id) then
    Except.error ("Found duplicated primary key value " ++ o.id)
  else Except.ok { st with objects := st.objects ++ [o] }

/-- `CREATE (r:Result {...})` with the primary-key check. -/
def createResult (st : Store) (r : ResultNode) : Except String Store :=
  if st.results.any (fun x => x.id = r.id) then
    Except.error ("Found duplicated primary key value " ++ r.id)
  else Except.ok { st with results := st.results ++ [r] }

/-- `CREATE (e:Entity {...})` with the primary-key check. -/
def createEntity (st : Store) (e : EntityNode) : Except String Store :=
  if st.entities.any (fun x => x.entity_id = e.entity_id) then
    Except.error ("Found duplicated primary key value " ++ e.entity_id)
  else Except.ok { st with entities := st.entities ++ [e] }

/-- `CREATE (r:Requirement {...})` with the primary-key check. -/
def createRequirement (st : Store) (r : ReqNode) : Except String Store :=
  if st.requirements.any (fun x => x.req_id = r.req_id) then
    Except.error ("Found duplicated primary key value " ++ r.req_id)
  else Except.ok { st with requirements := st.requirements ++ [r] }

/-- Does a requirement with this key exist? -/
def Store.hasReq (st : Store) (reqId : String) : Bool :=
  st.requirements.any (fun r => r.req_id = reqId)

/-- `MATCH (r:Requirement), (a:Actor) CREATE (r)-[:Performs]->(a)`. -/
def addPerforms (st : Store) (reqId actorId : String) : Store :=
  if st.hasReq reqId && st.actors.any (fun a => a.id = actorId) then
    { st with performsEdges := st.performsEdges ++ [(reqId, actorId)] }
  else st

/-- `MATCH (r:Requirement), (a:Action) CREATE (r)-[:Commits]->(a)`. -/
def addCommits (st : Store) (reqId actionId : String) : Store :=
  if st.hasReq reqId && st.actions.any (fun a => a.id = actionId) then
    { st with commitsEdges := st.commitsEdges ++ [(reqId, actionId)] }
  else st

/-- `MATCH (r:Requirement), (o:Object) CREATE (r)-[:On_what_performed]->(o)`. -/
def addOnWhatPerformed (st : Store) (reqId objectId : String) : Store :=
  if st.hasReq reqId && st.objects.any (fun o => o.id = objectId) then
    { st with onWhatPerformedEdges := st.onWhatPerformedEdges ++ [(reqId, objectId)] }
  else st

/-- `MATCH (r:Requirement), (res:Result) CREATE (r)-[:Expects]->(res)`. -/
def addExpects (st : Store) (reqId resultId : String) : Store :=
  if st.hasReq reqId && st.results.any (fun r => r.id = resultId) then
    { st with expectsEdges := st.expectsEdges ++ [(reqId, resultId)] }
  else st

/-- `MATCH (r:Requirement), (c:Chunk) CREATE (r)-[:DescribedBy]->(c)`. -/
def addDescribedBy (st : Store) (reqId chunkId : String) : Store :=
  if st.hasReq reqId && st.hasChunk chunkId then
    { st with describedByEdges := st.describedByEdges ++ [(reqId, chunkId)] }
  else st

/-- `MATCH (r:Requirement), (d:Document) CREATE (r)-[:References]->(d)`. -/
def addReferences (st : Store) (reqId docId : String) : Store :=
  if st.hasReq reqId && st.hasDoc docId then
    { st with referencesEdges := st.referencesEdges ++ [(reqId, docId)] }
  else st

/-! ## The graph builder

`build_rag_graph_from_text(doc_id, filename, text, db)` in
`app/core/rag_builder.py`.  KùzuDB statements auto-commit one by one, so a
mid-build exception leaves the writes so far in place; the body is therefore
threaded through `Except (Store × String) Store`, where the error value
carries the partial store at the point of failure together with the exception
message.  The `except` clause then runs the error-status statement on that
partial store and re-raises; if that statement itself raises (no `error`
column), the original exception is replaced and the store stays as it was. -/

/-- Run the next statement, capturing the current partial store on failure. -/
def bstep (r : Except (Store × String) Store) (f : Store → Except String Store) :
    Except (Store × String) Store :=
  match r with
  | Except.error e => Except.error e
  | Except.ok st =>
    match f st with
    | Except.ok st' => Except.ok st'
    | Except.error m => Except.error (st, m)

/-- The text normalisation at the top of `build_rag_graph_from_text`:
`re.sub(r'\n+', '\n', text.strip())`, then append a period to every
non-terminated line and join the lines with spaces. -/
def normalizeText (t : PyStr) : PyStr :=
  let t1 := collapseNewlineRuns (pyStrip t)
  let lines := t1.splitOn '\n'
  List.intercalate [' '] (lines.map (fun line =>
    let l := pyStrip line
    if !l.isEmpty && l.getLast? ≠ some '.' then l ++ ['.'] else l))

/-- The `for i, (chunks, ...) in enumerate(chunks_with_info)` loop: create the
chunk node (embedding `embeddings[i]`, an `IndexError` if the embedding batch
is too short) and its `Contains` edge. -/
def buildChunkStep (docId : String) (embeddings : List (List ℚ))
    (r : Except (Store × String) Store) (p : Nat × RawChunk) :
    Except (Store × String) Store :=
  bstep r (fun st =>
    match embeddings.get? p.1 with
    | none => Except.error "IndexError: list index out of range"
    | some emb =>
      (createChunk st
        { chunk_id := mkChunkId docId p.1, doc_id := docId,
          text := p.2.text, embedding := some emb }).map
        (fun st' => addContains st' docId (mkChunkId docId p.1)))

/-- The per-requirement persistence: create the node, then the optional
`Performs`/`Commits`/`On_what_performed`/`Expects` edges, the `DescribedBy`
edge (the draft always carries a `chunk_id`), and the `References` edge. -/
def buildReqStep (docId now : String) (r : Except (Store × String) Store)
    (rq : ReqDraft) : Except (Store × String) Store :=
  bstep r (fun st =>
    (createRequirement st
      { req_id := rq.req_id, rtype := rq.rtype, description := rq.description,
        created_at := now }).map (fun st1 =>
      let st2 := match rq.actor with
        | some a => addPerforms st1 rq.req_id a
        | none => st1
      let st3 := match rq.action with
        | some a => addCommits st2 rq.req_id a
        | none => st2
      let st4 := match rq.obj with
        | some o => addOnWhatPerformed st3 rq.req_id o
        | none => st3
      let st5 := match rq.result with
        | some res => addExpects st4 rq.req_id res
        | none => st4
      let st6 := addDescribedBy st5 rq.req_id rq.chunk_id
      addReferences st6 rq.req_id docId))

/-- The `try` body of `build_rag_graph_from_text`: normalise, chunk, embed
(the batched `encode` outcome is the oracle `encodeRes`), extract, then
persist document, chunks, component nodes, requirement nodes and edges, and
finally mark the document `indexed`. -/
def buildBody (O : NlpOracle) (lang : String) (st0 : Store)
    (docId filename : String) (text : PyStr)
    (encodeRes : Except String (List (List ℚ))) (now : String) :
    Except (Store × String) Store :=
  let ntext := normalizeText text
  let chunks := chunkText O.sents ntext
  match encodeRes with
  | Except.error e => Except.error (st0, e)
  | Except.ok embeddings =>
    let comps := extractComponents O lang docId chunks
    let r1 : Except (Store × String) Store :=
      Except.ok { st0 with documents := mergeDocs docId filename now st0.documents }
    let r2 := chunks.enum.foldl (buildChunkStep docId embeddings) r1
    let r3 := comps.actors.foldl (fun r a => bstep r (fun st => createActor st a)) r2
    let r4 := comps.actions.foldl (fun r a => bstep r (fun st => createAction st a)) r3
    let r5 := comps.objects.foldl (fun r o => bstep r (fun st => createObject st o)) r4
    let r6 := comps.results.foldl (fun r x => bstep r (fun st => createResult st x)) r5
    let r7 := comps.entities.foldl (fun r e => bstep r (fun st => createEntity st
        { entity_id := e.entity_id, etype := e.etype, name := e.name })) r6
    let r8 := comps.requirements.foldl (buildReqStep docId now) r7
    match r8 with
    | Except.error e => Except.error e
    | Except.ok st => Except.ok { st with documents := indexDocs docId now st.documents }

/-- `build_rag_graph_from_text` for a connected store: run the body; on an
exception, run the error-status statement on the partial store and re-raise
(the replacement binder error if that statement itself fails).  Returns the
final store and the outcome seen by the caller. -/
def buildRagFromText (O : NlpOracle) (lang : String) (st0 : Store)
    (docId filename : String) (text : PyStr)
    (encodeRes : Except String (List (List ℚ))) (now : String) :
    Store × Except String Unit :=
  match buildBody O lang st0 docId filename text encodeRes now with
  | Except.ok st' => (st', Except.ok ())
  | Except.error (stp, msg) =>
    match setDocErrorStatus stp docId now msg with
    | Except.ok st'' => (st'', Except.error msg)
    | Except.error msg2 => (stp, Except.error msg2)

/-! ## Reindexing and document deletion -/

/-- The delete statement issued by `reindex_document`:
`MATCH (d:Document {doc_id}) OPTIONAL MATCH (d)-[r]-() DETACH DELETE d` —
it detach-deletes **only the Document node** (with its incident edges); the
chunk and requirement nodes stay. -/
def deleteDocOnly (st : Store) (docId : String) : Store :=
  if st.hasDoc docId then
    { st with
      documents := st.documents.filter (fun d => d.doc_id ≠ docId),
      containsEdges := st.containsEdges.filter (fun e => e.1 ≠ docId),
      referencesEdges := st.referencesEdges.filter (fun e => e.2 ≠ docId),
      describedInEdges := st.describedInEdges.filter (fun e => e.2 ≠ docId) }
  else st

/-- The chunk-count query closing `reindex_document`:
`MATCH (d:Document {doc_id})-[:Contains]->(c:Chunk) RETURN count(c)`. -/
def countContains (st : Store) (docId : String) : Nat :=
  if st.hasDoc docId then
    (st.containsEdges.filter (fun e => e.1 = docId && st.hasChunk e.2)).length
  else 0

/-- The `MERGE ... SET ... d.status = 'error', d.error = 'No text content
found' ...` statement used by `reindex_document` when extraction yields no
text; like every write to `d.error` it is a binder error on the
`KuzuDBClient.connect` schema. -/
def mergeDocNoTextError (st : Store) (docId filename now : String) :
    Except String Store :=
  if st.schemaHasError then
    Except.ok { st with documents :=
      if st.documents.any (fun d => d.doc_id = docId) then
        st.documents.map (fun d =>
          if d.doc_id = docId then
            { d with filename := filename, status := "error",
                     error := some "No text content found", updated_at := now }
          else d)
      else
        st.documents ++
          [{ doc_id := docId, filename := filename, status := "error",
             created_at := now, updated_at := now, processed_at := "",
             error := some "No text content found" }] }
  else Except.error "Binder exception: Cannot find property error for d."

/-- The result dict of `reindex_document`. -/
structure ReindexOutcome where
  chunks_indexed : Nat
  status : String
  detail : Option String := none
  deriving Repr, DecidableEq

/-- `reindex_document(doc_id, db)`.  Filesystem interaction (locating the
uploaded file and re-extracting its text) is an external collaborator,
supplied as `fileFound` / `filename` / `extractedText`; a missing file is the
404 path, any error outcome is turned into an HTTP 500 by the function's
`except` clause.  Inside the `try`: delete the document node, then rebuild
from the fresh text, then count the document's chunks. -/
def reindexDocument (O : NlpOracle) (lang : String) (st0 : Store)
    (docId : String) (fileFound : Bool) (filename : String)
    (extractedText : Except String PyStr)
    (encodeRes : Except String (List (List ℚ))) (now : String) :
    Store × Except String ReindexOutcome :=
  if !fileFound then
    (st0, Except.error ("File for doc_id " ++ docId ++ " not found"))
  else
    let st1 := deleteDocOnly st0 docId
    match extractedText with
    | Except.error e => (st1, Except.error e)
    | Except.ok text =>
      if (pyStrip text).isEmpty then
        match mergeDocNoTextError st1 docId filename now with
        | Except.ok st2 =>
          (st2, Except.ok { chunks_indexed := 0, status := "error",
                            detail := some "No text content found" })
        | Except.error m => (st1, Except.error m)
      else
        match buildRagFromText O lang st1 docId filename text encodeRes now with
        | (st2, Except.error e) => (st2, Except.error e)
        | (st2, Except.ok ()) =>
          (st2, Except.ok { chunks_indexed := countContains st2 docId,
                            status := "indexed" })

/-- The delete statement of the `delete_document` route
(`app/routers/documents.py`): `MATCH (d:Document {doc_id}) OPTIONAL MATCH
(d)-[:Contains]->(c:Chunk) DETACH DELETE d, c` — deletes the document node
and the chunks it `Contains` (with all edges incident to the deleted nodes);
requirement nodes are only detached, never deleted. -/
def deleteDocument (st : Store) (docId : String) : Store :=
  if st.hasDoc docId then
    let delChunkIds := st.containsEdges.filterMap (fun e =>
      if e.1 = docId && st.hasChunk e.2 then some e.2 else none)
    { st with
      documents := st.documents.filter (fun d => d.doc_id ≠ docId),
      chunks := st.chunks.filter (fun c => !delChunkIds.contains c.chunk_id),
      containsEdges := st.containsEdges.filter (fun e =>
        !(e.1 = docId || delChunkIds.contains e.2)),
      describedByEdges := st.describedByEdges.filter (fun e =>
        !delChunkIds.contains e.2),
      referencesEdges := st.referencesEdges.filter (fun e => e.2 ≠ docId),
      describedInEdges := st.describedInEdges.filter (fun e => e.2 ≠ docId) }
  else st

/-! ## The retriever

`retrieve_relevant_chunks(query_text, embedding_pipeline, db, filter_doc_id,
top_k, preferred_language)` in `app/core/rag_retriever.py`.  Note the
signature: there is **no** `similarity_threshold` and no `use_cache`
parameter.  When `db is None` the function connects itself *before* its
`try`, so a connection failure propagates; every failure inside the body is
caught and turned into `[]`. -/

/-- `max(map(abs, query_vector_list), default=1)`. -/
def maxAbsQ (l : List ℚ) : ℚ :=
  if l.isEmpty then 1 else (l.map (fun x => |x|)).foldl max 0

/-- The query-vector guard: rescale when the largest magnitude exceeds
`1e6`. -/
def normalizeQuery (l : List ℚ) : List ℚ :=
  let m := maxAbsQ l
  if m > 1000000 then l.map (· / m) else l

/-- `preferred_language if preferred_language in ["ru", "en"] else
query_lang`, with the language-detection failure defaulting to `"ru"`. -/
def contextLang (pl : Option String) (detectRes : Except String String) : String :=
  let queryLang := match detectRes with
    | Except.ok s => s
    | Except.error _ => "ru"
  if pl = some "ru" || pl = some "en" then pl.getD queryLang else queryLang

/-- Sort key of a candidate row (`c.embedding` is non-null for candidates). -/
def chunkSortKey (q : List ℚ) (c : ChunkNode) : ℚ := simKey q (c.embedding.getD [])

/-- The candidate set of the vector-similarity query:
`MATCH (c:Chunk) WHERE c.embedding IS NOT NULL [AND c.doc_id = $doc_id]`. -/
def candidateChunks (st : Store) (fd : Option String) : List ChunkNode :=
  st.chunks.filter (fun c =>
    c.embedding.isSome &&
      (match fd with
       | some d => c.doc_id = d
       | none => true))

/-- The `ORDER BY 1.0 - cosine(...) LIMIT $top_k` step: a stable sort by
descending similarity key, then the first `top_k` rows. -/
def topChunks (st : Store) (q : List ℚ) (fd : Option String) (topK : Nat) :
    List ChunkNode :=
  ((candidateChunks st fd).insertionSort (keyOrder (chunkSortKey q))).take topK

/-- The per-row dicts built in step 1 of the retriever; `score` is the
hard-coded `1.0` (`# Simplified, as KuzuDB computes similarity`). -/
structure ChunkHit where
  text : PyStr
  score : ℚ
  doc_id : String
  chunk_id : String
  deriving Repr, DecidableEq

/-- One requirement row of the enrichment query, with the names of its
optional role neighbours. -/
structure ReqContext where
  req_id : String
  rtype : String
  description : PyStr
  actor : Option PyStr
  action : Option PyStr
  obj : Option PyStr
  result : Option PyStr
  deriving Repr, DecidableEq

/-- The `context` dict assembled from the enrichment query.  The
`documents` list is absent: a non-null `Described_in` row would be read with
the keys `id`/`name`/`content`, none of which exist on the `Document` table,
so such a row raises a `KeyError` instead of producing an entry (modelled in
`gatherContext`); on every input that does not raise the list is empty. -/
structure ContextData where
  requirements : List ReqContext
  userInteractions : List UINode
  related : List (String × PyStr)
  deriving Repr, DecidableEq

/-- First edge of a relationship table out of `reqId`. -/
def lookupRole (edges : List (String × String)) (reqId : String) : Option String :=
  (edges.find? (fun e => e.1 = reqId)).map (fun e => e.2)

/-- The enrichment query for one chunk: the requirements `DescribedBy`-linked
to it, each with its optional `Performs`/`Commits`/`On_what_performed`/
`Expects` neighbours (the builder creates at most one such edge per
requirement, so rows are modelled with the first matching edge), the linked
feedback interactions, and the `Depends_on` neighbours.  A non-null
`Described_in` document row raises (see `ContextData`). -/
def gatherContext (st : Store) (chunkId : String) : Except String ContextData :=
  let reqs := st.requirements.filter (fun r =>
    st.describedByEdges.contains (r.req_id, chunkId))
  if reqs.any (fun r => st.describedInEdges.any (fun e =>
      e.1 = r.req_id && st.hasDoc e.2)) then
    Except.error "KeyError: id"
  else
    Except.ok
      { requirements := reqs.map (fun r =>
          { req_id := r.req_id, rtype := r.rtype, description := r.description,
            actor := (lookupRole st.performsEdges r.req_id).bind (fun i =>
              (st.actors.find? (fun a => a.id = i)).map (fun a => a.name)),
            action := (lookupRole st.commitsEdges r.req_id).bind (fun i =>
              (st.actions.find? (fun a => a.id = i)).map (fun a => a.name)),
            obj := (lookupRole st.onWhatPerformedEdges r.req_id).bind (fun i =>
              (st.objects.find? (fun o => o.id = i)).map (fun o => o.name)),
            result := (lookupRole st.expectsEdges r.req_id).bind (fun i =>
              (st.results.find? (fun x => x.id = i)).map (fun x => x.description)) }),
        userInteractions := reqs.filterMap (fun r =>
          (lookupRole st.linkedFeedbackEdges r.req_id).bind (fun i =>
            st.userInteractions.find? (fun u => u.id = i))),
        related := reqs.filterMap (fun r =>
          (lookupRole st.dependsOnEdges r.req_id).bind (fun i =>
            (st.requirements.find? (fun r2 => r2.req_id = i)).map
              (fun r2 => (r2.req_id, r2.description)))) }

/-- String literal shorthand for building context text. -/
def SL (s : String) : PyStr := s.toList

/-- One requirement block of `format_context`. -/
def formatReq (reqLabel descLabel actorLabel actionLabel objectLabel
    resultLabel : String) (p : Nat × ReqContext) : PyStr :=
  let (i, r) := p
  SL (toString (i + 1)) ++ SL ". " ++ SL reqLabel ++ SL " " ++ SL r.req_id ++
    SL " (" ++ SL r.rtype ++ SL "):\n" ++
    SL "   - " ++ SL descLabel ++ SL ": " ++ r.description ++ SL "\n" ++
    (match r.actor with
     | some a => SL "   - " ++ SL actorLabel ++ SL ": " ++ a ++ SL "\n"
     | none => []) ++
    (match r.action with
     | some a => SL "   - " ++ SL actionLabel ++ SL ": " ++ a ++ SL "\n"
     | none => []) ++
    (match r.obj with
     | some o => SL "   - " ++ SL objectLabel ++ SL ": " ++ o ++ SL "\n"
     | none => []) ++
    (match r.result with
     | some x => SL "   - " ++ SL resultLabel ++ SL ": " ++ x ++ SL "\n"
     | none => [])

/-- `format_context(context, lang)` (the `documents` loop never has entries to
render, see `ContextData`). -/
def formatContext (ctx : ContextData) (lang : String) : PyStr :=
  let en := lang = "en"
  let header := if en then
      "Context for autocompletion of functional requirement text:\n\n"
    else "Контекст для автодополнения текста функционального требования:\n\n"
  let reqLabel := if en then "Requirement" else "Требование"
  let descLabel := if en then "Description" else "Описание"
  let actorLabel := if en then "Actor" else "Актор"
  let actionLabel := if en then "Action" else "Действие"
  let objectLabel := if en then "Object" else "Объект"
  let resultLabel := if en then "Result" else "Результат"
  let uiLabel := if en then "Previous user interaction"
    else "Предыдущее взаимодействие с пользователем"
  let uiSuggestionLabel := if en then "System suggestion" else "Предложение системы"
  let uiReactionLabel := if en then "User reaction" else "Реакция пользователя"
  let relReqLabel := if en then "Related requirement" else "Связанное требование"
  SL header ++
    (ctx.requirements.enum.map
      (formatReq reqLabel descLabel actorLabel actionLabel objectLabel resultLabel)).flatten ++
    (ctx.userInteractions.enum.map (fun p =>
      SL "\n" ++ SL (toString (p.1 + 1)) ++ SL ". " ++ SL uiLabel ++ SL ":\n" ++
        SL "   - " ++ SL uiSuggestionLabel ++ SL ": " ++ p.2.suggestion_text ++ SL "\n" ++
        SL "   - " ++ SL uiReactionLabel ++ SL ": " ++ p.2.user_reaction ++ SL "\n")).flatten ++
    (ctx.related.enum.map (fun p =>
      SL "\n" ++ SL (toString (p.1 + 1)) ++ SL ". " ++ SL relReqLabel ++ SL ":\n" ++
        SL "   - " ++ SL descLabel ++ SL ": " ++ p.2.2 ++ SL "\n")).flatten

/-- One entry of the returned `enriched_results`. -/
structure EnrichedResult where
  chunk : PyStr
  score : ℚ
  doc_id : String
  chunk_id : String
  context : PyStr
  language : String
  deriving Repr, DecidableEq

/-- Step 2 of the retriever for one hit: run the enrichment query and render
the context block. -/
def mkEnriched (st : Store) (lang : String) (hit : ChunkHit) :
    Except String EnrichedResult :=
  (gatherContext st hit.chunk_id).map (fun ctx =>
    { chunk := hit.text, score := hit.score, doc_id := hit.doc_id,
      chunk_id := hit.chunk_id, context := formatContext ctx lang,
      language := lang })

/-- The `try` body of `retrieve_relevant_chunks`: embed the query (outcome
`encodeRes`), rank, build the hit dicts with the constant score `1.0`, return
`[]` on an empty hit list, enrich each hit; any exception inside the body
(embedding failure, enrichment `KeyError`, ...) is caught and yields `[]`. -/
def retrieveBody (st : Store) (encodeRes : Except String (List ℚ))
    (detectRes : Except String String) (pl fd : Option String) (topK : Nat) :
    List EnrichedResult :=
  match encodeRes with
  | Except.error _ => []
  | Except.ok qv =>
    let q := normalizeQuery qv
    let lang := contextLang pl detectRes
    let hits := (topChunks st q fd topK).map (fun c =>
      ({ text := c.text, score := 1, doc_id := c.doc_id,
         chunk_id := c.chunk_id } : ChunkHit))
    if hits.isEmpty then []
    else
      match hits.mapM (mkEnriched st lang) with
      | Except.ok l => l
      | Except.error _ => []

/-- The `db` resolution at the top of `retrieve_relevant_chunks` — **before**
the `try`: a passed-in client is used as is; otherwise a fresh
`KuzuDBClient(settings.KUZUDB_PATH)` is connected, whose outcome is
`connectRes`. -/
def resolveDb (dbArg : Option Store) (connectRes : Except String Store) :
    Except String Store :=
  match dbArg with
  | some s => Except.ok s
  | none => connectRes

/-- `retrieve_relevant_chunks(query_text, embedding_pipeline, db,
filter_doc_id, top_k, preferred_language)`.  The query text only enters
through the embedding and language-detection oracles. -/
def retrieveRelevantChunks (_queryText : PyStr) (dbArg : Option Store)
    (connectRes : Except String Store) (encodeRes : Except String (List ℚ))
    (detectRes : Except String String) (pl fd : Option String) (topK : Nat) :
    Except String (List EnrichedResult) :=
  match resolveDb dbArg connectRes with
  | Except.error e => Except.error e
  | Except.ok st => Except.ok (retrieveBody st encodeRes detectRes pl fd topK)

/-! ## Substring-occurrence predicates (for the offset-correctness proofs) -/

/-- `s` occurs contiguously inside `t`. -/
def subseg (s t : PyStr) : Prop := ∃ u v, t = u ++ s ++ v

/-- `DisjOcc t segs`: the segments occur in `t` in order, pairwise disjoint
and left to right. -/
inductive DisjOcc : PyStr → List PyStr → Prop
  | nil (t : PyStr) : DisjOcc t []
  | cons (pre seg rest : PyStr) (segs : List PyStr) :
      DisjOcc rest segs → DisjOcc (pre ++ seg ++ rest) (seg :: segs)

/-! ## Concrete inputs for the claim analyses -/

/-- A linguistic oracle with trivial analyses: one sentence per text, no
tokens, no entities (spaCy imposes no lower bound on what its statistical
models report). -/
def oracleTrivial : NlpOracle :=
  { sents := fun s => [s], tokens := fun _ => [], ents := [] }

/-- Short ASCII literal. -/
def S (s : String) : PyStr := s.toList

/-- A document previously uploaded and mid-pipeline. -/
def c1Doc : DocNode :=
  { doc_id := "d1", filename := "f.txt", status := "processing",
    created_at := "t0", updated_at := "t0", processed_at := "t0" }

/-- A stale chunk left over from an earlier build of the same document. -/
def c1Stale : ChunkNode :=
  { chunk_id := "d1_chunk_0", doc_id := "d1", text := S "old",
    embedding := some [1] }

/-- C1 failing input: the store (under the `KuzuDBClient.connect` schema)
with the document and a stale chunk whose id the rebuild will regenerate. -/
def c1Store : Store :=
  { emptyStore with documents := [c1Doc], chunks := [c1Stale] }

/-- A five-word plain text. -/
def c1Text : PyStr := S "hello world this is text"

/-- C2 failing input: a document already indexed once (one chunk, one
`Contains` edge). -/
def c2Store : Store :=
  { emptyStore with
    documents := [{ c1Doc with status := "indexed" }],
    chunks := [c1Stale],
    containsEdges := [("d1", "d1_chunk_0")] }

/-- C3 counterexample store: a single chunk whose embedding is orthogonal to
the query vector. -/
def c3CexStore : Store :=
  { emptyStore with
    chunks := [{ chunk_id := "c1", doc_id := "d1", text := S "alpha",
                 embedding := some [0, 1] }] }

/-- C3 witness store: two chunks with linearly independent embeddings. -/
def c3WStore : Store :=
  { emptyStore with
    chunks := [{ chunk_id := "c1", doc_id := "d1", text := S "alpha",
                 embedding := some [1, 0] },
               { chunk_id := "c2", doc_id := "d1", text := S "beta",
                 embedding := some [0, 1] }] }

/-- C4 witness store: one embedded chunk. -/
def c4WStore : Store :=
  { emptyStore with
    chunks := [{ chunk_id := "c1", doc_id := "d1", text := S "alpha",
                 embedding := some [1] }] }

/-- C5 counterexample store: the completion-flow schema variant (which does
have an `error` column) with a document carrying an error message from an
earlier failed attempt. -/
def c5Store : Store :=
  { emptyStore with
    schemaHasError := true,
    documents := [{ c1Doc with status := "error", error := some "old failure" }] }

/-- C6 store: a document with one chunk and one requirement that references
it. -/
def c6Store : Store :=
  { emptyStore with
    documents := [c1Doc],
    chunks := [{ chunk_id := "c1", doc_id := "d1", text := S "alpha",
                 embedding := some [1] }],
    requirements := [{ req_id := "r1", rtype := "functional",
                       description := S "the system must respond",
                       created_at := "t0" }],
    containsEdges := [("d1", "c1")],
    describedByEdges := [("r1", "c1")],
    referencesEdges := [("r1", "d1")] }

/-- C7 counterexample: a 553-character single-paragraph text whose only
sentence boundary is `"! "` (so the layout split leaves it whole and the
oversized-paragraph re-split fires). -/
def c7Base : PyStr := List.replicate 260 'a'

/-- First sentence of the C7 counterexample text. -/
def c7Sent1 : PyStr := c7Base ++ S " must react now!"

/-- Second sentence of the C7 counterexample text. -/
def c7Sent2 : PyStr := c7Base ++ S " will react soon!"

/-- The C7 counterexample text. -/
def c7Text : PyStr := c7Sent1 ++ [' '] ++ c7Sent2

/-- A sentence-segmentation oracle that splits the counterexample text at its
`"! "` boundary (as any sentence segmenter does) and is trivial elsewhere. -/
def c7Sents : PyStr → List PyStr :=
  fun s => if s = c7Text then [c7Sent1, c7Sent2] else [s]

/-- C8 witness text: a two-word paragraph and a short bulleted list item. -/
def c8Text : PyStr := S "alpha beta\n\n- li"

/-- Trivial sentence oracle for the chunker witnesses. -/
def sentsTrivial : PyStr → List PyStr := fun s => [s]

/-- The short list-item chunk of the C8 witness text. -/
def c8Kept : RawChunk :=
  { text := S "- li", start := 12, stop := 16, ctype := "list_item" }

/-- The short paragraph chunk of the C8 witness text. -/
def c8Dropped : RawChunk :=
  { text := S "alpha beta", start := 0, stop := 10, ctype := "paragraph" }

/-- C9 witness store: one embedded chunk. -/
def c9WStore : Store :=
  { emptyStore with
    chunks := [{ chunk_id := "c1", doc_id := "d1", text := S "alpha",
                 embedding := some [1] }] }

/-- C10 witness chunks: a functional-section header followed by a numbered
list item. -/
def c10Chunks : List RawChunk :=
  [{ text := S "1. Functional Requirements", start := 0, stop := 26,
     ctype := "header" },
   { text := S "1. do the thing", start := 28, stop := 43,
     ctype := "list_item" }]

deriving instance DecidableEq for Except

/-! ## Helper lemmas -/

/-- Inversion for `List.mapM` over `Except`: every output element comes from
some input element. -/
theorem mapM_except_mem {α β : Type} (f : α → Except String β) :
    ∀ (xs : List α) (ys : List β), xs.mapM f = Except.ok ys →
      ∀ y ∈ ys, ∃ x ∈ xs, f x = Except.ok y := by
  intro xs
  induction xs with
  | nil =>
    intro ys h y hy
    simp only [List.mapM_nil, pure] at h
    cases h
    simp at hy
  | cons x xs ih =>
    intro ys h y hy
    rw [List.mapM_cons] at h
    cases hfx : f x with
    | error e => rw [hfx] at h; simp [Bind.bind, Except.bind] at h
    | ok b =>
      rw [hfx] at h
      cases hrest : xs.mapM f with
      | error e => rw [hrest] at h; simp [Bind.bind, Except.bind] at h
      | ok bs =>
        rw [hrest] at h
        simp only [Bind.bind, Except.bind, pure, Except.pure, Except.ok.injEq] at h
        subst h
        rcases List.mem_cons.mp hy with rfl | hmem
        · exact ⟨x, List.mem_cons_self x xs, hfx⟩
        · rcases ih bs hrest y hmem with ⟨x', hx', hfx'⟩
          exact ⟨x', List.mem_cons_of_mem x hx', hfx'⟩

/-- `List.mapM` over `Except` relates inputs and outputs pointwise. -/
theorem mapM_except_forall₂ {α β : Type} (f : α → Except String β) :
    ∀ (xs : List α) (ys : List β), xs.mapM f = Except.ok ys →
      List.Forall₂ (fun x y => f x = Except.ok y) xs ys := by
  intro xs
  induction xs with
  | nil =>
    intro ys h
    simp only [List.mapM_nil, pure] at h
    cases h
    exact List.Forall₂.nil
  | cons x xs ih =>
    intro ys h
    rw [List.mapM_cons] at h
    cases hfx : f x with
    | error e => rw [hfx] at h; simp [Bind.bind, Except.bind] at h
    | ok b =>
      rw [hfx] at h
      cases hrest : xs.mapM f with
      | error e => rw [hrest] at h; simp [Bind.bind, Except.bind] at h
      | ok bs =>
        rw [hrest] at h
        simp only [Bind.bind, Except.bind, pure, Except.pure, Except.ok.injEq] at h
        subst h
        exact List.Forall₂.cons hfx (ih bs hrest)

/-- A `mapM` over `Except` with a callback that never fails succeeds. -/
theorem mapM_except_total {α β : Type} (f : α → Except String β)
    (xs : List α) (h : ∀ x ∈ xs, ∃ y, f x = Except.ok y) :
    ∃ ys, xs.mapM f = Except.ok ys := by
  induction xs with
  | nil => exact ⟨[], rfl⟩
  | cons x xs ih =>
    rcases h x (List.mem_cons_self x xs) with ⟨y, hy⟩
    rcases ih (fun a ha => h a (List.mem_cons_of_mem x ha)) with ⟨ys, hys⟩
    refine ⟨y :: ys, ?_⟩
    rw [List.mapM_cons, hy, hys]
    rfl

/-- Every result of the retriever's `try` body carries the constant score
`1.0`. -/
theorem retrieveBody_score (st : Store) (encodeRes : Except String (List ℚ))
    (detectRes : Except String String) (pl fd : Option String) (topK : Nat) :
    ∀ r ∈ retrieveBody st encodeRes detectRes pl fd topK, r.score = 1 := by
  intro r hr
  unfold retrieveBody at hr
  cases encodeRes with
  | error e => simp at hr
  | ok qv =>
    simp only at hr
    set hits := (topChunks st (normalizeQuery qv) fd topK).map (fun c =>
      ({ text := c.text, score := 1, doc_id := c.doc_id,
         chunk_id := c.chunk_id } : ChunkHit)) with hhits
    by_cases hemp : hits.isEmpty
    · rw [if_pos hemp] at hr; simp at hr
    · rw [if_neg hemp] at hr
      cases hmap : hits.mapM (mkEnriched st (contextLang pl detectRes)) with
      | error e => rw [hmap] at hr; simp at hr
      | ok l =>
        rw [hmap] at hr
        rcases mapM_except_mem _ hits l hmap r hr with ⟨hit, hhit, henr⟩
        have hscore : hit.score = 1 := by
          rw [hhits] at hhit
          rcases List.mem_map.mp hhit with ⟨c, _, rfl⟩
          rfl
        unfold mkEnriched at henr
        cases hg : gatherContext st hit.chunk_id with
        | error e => rw [hg] at henr; simp [Except.map] at henr
        | ok ctx =>
          rw [hg] at henr
          simp only [Except.map, Except.ok.injEq] at henr
          rw [← henr, ← hscore]

/-- C9: every chunk returned by `retrieve_relevant_chunks` carries the
hard-coded score `1.0`, independent of its actual cosine similarity to the
query. -/
theorem c9_score_constant_one (queryText : PyStr) (dbArg : Option Store)
    (connectRes : Except String Store) (encodeRes : Except String (List ℚ))
    (detectRes : Except String String) (pl fd : Option String) (topK : Nat)
    (l : List EnrichedResult)
    (h : retrieveRelevantChunks queryText dbArg connectRes encodeRes detectRes
      pl fd topK = Except.ok l) :
    ∀ r ∈ l, r.score = 1 := by
  unfold retrieveRelevantChunks at h
  cases hdb : resolveDb dbArg connectRes with
  | error e => rw [hdb] at h; simp at h
  | ok st =>
    rw [hdb] at h
    simp only [Except.ok.injEq] at h
    subst h
    exact retrieveBody_score st encodeRes detectRes pl fd topK

/-- C9 witness: a concrete retrieval returning one chunk, whose reported score
is `1.0` even though the ranking key exists. -/
theorem c9_score_constant_one_witness :
    ∃ l, retrieveRelevantChunks (S "q") (some c9WStore) (Except.error "unused")
        (Except.ok [1]) (Except.ok "en") none none 3 = Except.ok l ∧
      ∀ r ∈ l, r.score = 1 := by
  refine ⟨_, rfl, ?_⟩
  exact c9_score_constant_one (S "q") (some c9WStore) (Except.error "unused")
    (Except.ok [1]) (Except.ok "en") none none 3 _ rfl

/-- C4 counterexample: when no client is passed in and connecting to the store
fails (the store being unavailable), `retrieve_relevant_chunks` propagates the
exception — the connection happens before its `try` block. -/
theorem c4_connect_failure_cex :
    retrieveRelevantChunks (S "q") none (Except.error "store unavailable")
      (Except.ok [1]) (Except.ok "en") none none 5 =
      Except.error "store unavailable" := rfl

/-- C4 amended: once a connected store is available, retrieval never raises;
an empty chunk corpus yields the empty sequence, and an embedding failure
inside the body also yields the empty sequence. -/
theorem c4_degradation (queryText : PyStr) (st : Store)
    (connectRes : Except String Store) (encodeRes : Except String (List ℚ))
    (detectRes : Except String String) (pl fd : Option String) (topK : Nat) :
    (∃ l, retrieveRelevantChunks queryText (some st) connectRes encodeRes
        detectRes pl fd topK = Except.ok l) ∧
    (st.chunks = [] →
      retrieveRelevantChunks queryText (some st) connectRes encodeRes
        detectRes pl fd topK = Except.ok []) ∧
    (∀ e, encodeRes = Except.error e →
      retrieveRelevantChunks queryText (some st) connectRes encodeRes
        detectRes pl fd topK = Except.ok []) := by
  refine ⟨⟨retrieveBody st encodeRes detectRes pl fd topK, rfl⟩, ?_, ?_⟩
  · intro h
    cases encodeRes with
    | error e =>
      simp [retrieveRelevantChunks, resolveDb, retrieveBody]
    | ok qv =>
      simp [retrieveRelevantChunks, resolveDb, retrieveBody, topChunks,
        candidateChunks, h, List.insertionSort]
  · intro e he
    subst he
    simp [retrieveRelevantChunks, resolveDb, retrieveBody]

/-- C4 witness: the amended degradation properties at a concrete store. -/
theorem c4_degradation_witness :
    ((emptyStore.chunks = []) ∧
      retrieveRelevantChunks (S "q") (some emptyStore) (Except.error "x")
        (Except.ok [1]) (Except.ok "en") none none 5 = Except.ok []) ∧
    (Except.error "embed down" = (Except.error "embed down" : Except String (List ℚ)) ∧
      retrieveRelevantChunks (S "q") (some c4WStore) (Except.error "x")
        (Except.error "embed down") (Except.ok "en") none none 5 = Except.ok []) := by
  constructor
  · exact ⟨rfl, (c4_degradation (S "q") emptyStore (Except.error "x")
      (Except.ok [1]) (Except.ok "en") none none 5).2.1 rfl⟩
  · exact ⟨rfl, (c4_degradation (S "q") c4WStore (Except.error "x")
      (Except.error "embed down") (Except.ok "en") none none 5).2.2 "embed down" rfl⟩

/-- C6 counterexample: deleting a document removes it and its chunks, but a
requirement that referenced the document (via a `References` edge) survives in
the store. -/
theorem c6_requirement_survives_cex :
    ("r1", "d1") ∈ c6Store.referencesEdges ∧
    (∀ c ∈ (deleteDocument c6Store "d1").chunks, c.chunk_id ≠ "c1") ∧
    ∃ r ∈ (deleteDocument c6Store "d1").requirements, r.req_id = "r1" := by
  decide

/-- C6 amended: deleting a document removes the document node, every chunk it
`Contains`, and every `References` edge into it — but requirement nodes are
left untouched. -/
theorem c6_delete_cascade (st : Store) (docId : String)
    (h : st.hasDoc docId = true) :
    (∀ d ∈ (deleteDocument st docId).documents, d.doc_id ≠ docId) ∧
    (∀ e ∈ st.containsEdges, e.1 = docId → st.hasChunk e.2 = true →
      ∀ c ∈ (deleteDocument st docId).chunks, c.chunk_id ≠ e.2) ∧
    (∀ e ∈ (deleteDocument st docId).referencesEdges, e.2 ≠ docId) ∧
    (deleteDocument st docId).requirements = st.requirements := by
  unfold deleteDocument
  rw [if_pos h]
  refine ⟨?_, ?_, ?_, rfl⟩
  · intro d hd
    exact of_decide_eq_true (List.mem_filter.mp hd).2
  · intro e he h1 h2 c hc
    have hcmem := (List.mem_filter.mp hc).2
    simp only [Bool.not_eq_true'] at hcmem
    intro hceq
    have hin : e.2 ∈ st.containsEdges.filterMap (fun e =>
        if e.1 = docId && st.hasChunk e.2 then some e.2 else none) := by
      apply List.mem_filterMap.mpr
      exact ⟨e, he, by simp [h1, h2]⟩
    rw [← hceq] at hin
    have := List.elem_eq_true_of_mem hin
    exact absurd this (by simpa [List.contains] using hcmem)
  · intro e he
    exact of_decide_eq_true (List.mem_filter.mp he).2

/-- C6 witness: the amended cascade at the concrete store. -/
theorem c6_delete_cascade_witness :
    c6Store.hasDoc "d1" = true ∧
    ((∀ d ∈ (deleteDocument c6Store "d1").documents, d.doc_id ≠ "d1") ∧
     (∀ e ∈ c6Store.containsEdges, e.1 = "d1" → c6Store.hasChunk e.2 = true →
       ∀ c ∈ (deleteDocument c6Store "d1").chunks, c.chunk_id ≠ e.2) ∧
     (∀ e ∈ (deleteDocument c6Store "d1").referencesEdges, e.2 ≠ "d1") ∧
     (deleteDocument c6Store "d1").requirements = c6Store.requirements) :=
  ⟨by decide, c6_delete_cascade c6Store "d1" (by decide)⟩

/-- C8: `chunk_text`'s filter loop — a chunk of fewer than 5 words whose type
is neither `list_item` nor `header` contributes nothing to the output, while a
short `list_item` or `header` chunk is passed through verbatim. -/
theorem c8_short_chunk_filter (sents : PyStr → List PyStr) (text : PyStr) :
    chunkText sents text 512 =
      ((segmentChunks text).map (refineOne sents 512)).flatten ∧
    ∀ ch ∈ segmentChunks text, pyWordCount ch.text < 5 →
      (¬ (ch.ctype = "list_item" ∨ ch.ctype = "header") →
        refineOne sents 512 ch = []) ∧
      ((ch.ctype = "list_item" ∨ ch.ctype = "header") →
        refineOne sents 512 ch = [ch]) := by
  refine ⟨rfl, ?_⟩
  intro ch _ hwc
  constructor
  · intro hty
    push_neg at hty
    simp [refineOne, hwc, hty.1, hty.2]
  · intro hty
    rcases hty with h | h <;> simp [refineOne, hwc, h]

/-- C8 witness: on a concrete text, the two-word paragraph is dropped while
the two-word list item is kept. -/
theorem c8_short_chunk_filter_witness :
    (∃ ch ∈ segmentChunks c8Text, pyWordCount ch.text < 5 ∧
      ch.ctype = "list_item" ∧ refineOne sentsTrivial 512 ch = [ch] ∧
      ch ∈ chunkText sentsTrivial c8Text 512) ∧
    (∃ ch ∈ segmentChunks c8Text, pyWordCount ch.text < 5 ∧
      ch.ctype = "paragraph" ∧ refineOne sentsTrivial 512 ch = [] ∧
      ch ∉ chunkText sentsTrivial c8Text 512) := by
  constructor
  · refine ⟨c8Kept, by decide, by decide, by decide, ?_, by decide⟩
    exact ((c8_short_chunk_filter sentsTrivial c8Text).2 c8Kept (by decide)
      (by decide)).2 (Or.inl rfl)
  · refine ⟨c8Dropped, by decide, by decide, by decide, ?_, by decide⟩
    exact ((c8_short_chunk_filter sentsTrivial c8Text).2 c8Dropped (by decide)
      (by decide)).1 (by decide)

/-- The token cascade never touches the requirement list. -/
theorem roleStep_requirements (lang doc_id : String) (s : ExtractState × ReqDraft)
    (t : Tok) : ((roleStep lang doc_id s t).1).requirements = s.1.requirements := by
  unfold roleStep
  repeat' split
  all_goals rfl

/-- The token cascade never changes which chunk a requirement draft points
at. -/
theorem roleStep_chunk_id (lang doc_id : String) (s : ExtractState × ReqDraft)
    (t : Tok) : ((roleStep lang doc_id s t).2).chunk_id = s.2.chunk_id := by
  unfold roleStep
  repeat' split
  all_goals rfl

/-- The folded token cascade: requirement list and draft chunk id are
preserved. -/
theorem foldl_roleStep_inv (lang doc_id : String) (toks : List Tok) :
    ∀ s : ExtractState × ReqDraft,
      ((toks.foldl (roleStep lang doc_id) s).1).requirements = s.1.requirements ∧
      ((toks.foldl (roleStep lang doc_id) s).2).chunk_id = s.2.chunk_id := by
  induction toks with
  | nil => intro s; exact ⟨rfl, rfl⟩
  | cons t toks ih =>
    intro s
    rcases ih (roleStep lang doc_id s t) with ⟨h1, h2⟩
    exact ⟨h1.trans (roleStep_requirements lang doc_id s t),
           h2.trans (roleStep_chunk_id lang doc_id s t)⟩

/-- `addRequirement` appends exactly one requirement, tagged with the chunk it
came from. -/
theorem addRequirement_reqs (lang doc_id : String) (st : ExtractState)
    (reqText : PyStr) (chunkId : String) (toks : List Tok) :
    ∃ d, (addRequirement lang doc_id st reqText chunkId toks).requirements =
      st.requirements ++ [d] ∧ d.chunk_id = chunkId := by
  unfold addRequirement
  rcases foldl_roleStep_inv lang doc_id toks
    (st, { req_id := mkComponentId "req" doc_id st.requirements.length,
           rtype := st.reqType, description := reqText, chunk_id := chunkId,
           sectionName := st.currentSection }) with ⟨h1, h2⟩
  exact ⟨_, by simp only [h1], h2⟩

/-- One paragraph sentence contributes only requirements tagged with the
enclosing chunk. -/
theorem processSentence_reqs (O : NlpOracle) (lang doc_id chunkId : String)
    (st : ExtractState) (sent : PyStr) :
    ∃ news, (processSentence O lang doc_id chunkId st sent).requirements =
      st.requirements ++ news ∧ ∀ d ∈ news, d.chunk_id = chunkId := by
  by_cases h1 : List.isEmpty (pyStrip sent) = true
  · exact ⟨[], by simp [processSentence, h1], by simp⟩
  · by_cases h2 : (isRequirementSentence (O.tokens (pyStrip sent)) lang ||
        reMatchListItem (pyStrip sent)) = true
    · rcases addRequirement_reqs lang doc_id st (pyStrip sent) chunkId
        (O.tokens (pyStrip sent)) with ⟨d, hd, hcid⟩
      exact ⟨[d], by simp [processSentence, h1, h2, hd], by simpa using hcid⟩
    · exact ⟨[], by simp [processSentence, h1, h2], by simp⟩

/-- The folded sentence loop of a paragraph chunk. -/
theorem foldl_processSentence_reqs (O : NlpOracle) (lang doc_id chunkId : String)
    (sents : List PyStr) :
    ∀ st : ExtractState,
      ∃ news, (sents.foldl (processSentence O lang doc_id chunkId) st).requirements =
        st.requirements ++ news ∧ ∀ d ∈ news, d.chunk_id = chunkId := by
  induction sents with
  | nil => intro st; exact ⟨[], by simp, by simp⟩
  | cons s sents ih =>
    intro st
    rcases processSentence_reqs O lang doc_id chunkId st s with ⟨n1, h1, hc1⟩
    rcases ih (processSentence O lang doc_id chunkId st s) with ⟨n2, h2, hc2⟩
    refine ⟨n1 ++ n2, ?_, ?_⟩
    · simp only [List.foldl_cons, h2, h1, List.append_assoc]
    · intro d hd
      rcases List.mem_append.mp hd with h | h
      · exact hc1 d h
      · exact hc2 d h

/-- One chunk of the extractor loop: a `header` chunk contributes no
requirement at all; any other chunk only contributes requirements tagged with
its own chunk id. -/
theorem processChunk_reqs (O : NlpOracle) (lang doc_id : String)
    (st : ExtractState) (p : Nat × RawChunk) :
    ∃ news, (processChunk O lang doc_id st p).requirements =
      st.requirements ++ news ∧
      (p.2.ctype = "header" → news = []) ∧
      ∀ d ∈ news, d.chunk_id = mkChunkId doc_id p.1 := by
  rcases p with ⟨idx, ch⟩
  by_cases hh : ch.ctype = "header"
  · exact ⟨[], by simp [processChunk, hh], fun _ => rfl, by simp⟩
  · by_cases hli : (ch.ctype = "list_item" || reMatchListItem ch.text) = true
    · by_cases hreq : (isRequirementSentence (O.tokens ch.text) lang ||
          reMatchListItem (pyStrip ch.text)) = true
      · rcases addRequirement_reqs lang doc_id st (pyStrip ch.text)
          (mkChunkId doc_id idx) (O.tokens ch.text) with ⟨d, hd, hcid⟩
        exact ⟨[d], by simp [processChunk, hh, hli, hreq, hd],
          fun h => absurd h hh, by simpa using hcid⟩
      · exact ⟨[], by simp [processChunk, hh, hli, hreq],
          fun h => absurd h hh, by simp⟩
    · simp only [Bool.or_eq_true, decide_eq_true_eq, not_or,
        Bool.not_eq_true] at hli
      by_cases hpara : ch.ctype = "paragraph"
      · rcases foldl_processSentence_reqs O lang doc_id (mkChunkId doc_id idx)
          (O.sents ch.text) st with ⟨news, h1, h2⟩
        refine ⟨news, ?_, fun h => absurd h hh, h2⟩
        simp [processChunk, hh, hli.1, hli.2, hpara, h1]
      · exact ⟨[], by simp [processChunk, hh, hli.1, hli.2, hpara],
          fun h => absurd h hh, by simp⟩

/-- C10: `extract_components` never produces a requirement from a `header`
chunk — every extracted requirement is tagged with the chunk id of a
non-header chunk, and header chunks only steer the section state. -/
theorem c10_header_no_requirement (O : NlpOracle) (lang doc_id : String)
    (chunks : List RawChunk) :
    ∀ rq ∈ (extractComponents O lang doc_id chunks).requirements,
      ∃ i ch, (i, ch) ∈ chunks.enum ∧ ch.ctype ≠ "header" ∧
        rq.chunk_id = mkChunkId doc_id i := by
  have main : ∀ (ps : List (Nat × RawChunk)) (st0 : ExtractState),
      ∀ rq ∈ (ps.foldl (processChunk O lang doc_id) st0).requirements,
        rq ∈ st0.requirements ∨
          ∃ i ch, (i, ch) ∈ ps ∧ ch.ctype ≠ "header" ∧
            rq.chunk_id = mkChunkId doc_id i := by
    intro ps
    induction ps with
    | nil => intro st0 rq hrq; exact Or.inl hrq
    | cons p ps ih =>
      intro st0 rq hrq
      rw [List.foldl_cons] at hrq
      rcases ih (processChunk O lang doc_id st0 p) rq hrq with h | h
      · rcases processChunk_reqs O lang doc_id st0 p with ⟨news, h1, hhd, hcid⟩
        rw [h1] at h
        rcases List.mem_append.mp h with h | h
        · exact Or.inl h
        · by_cases hh : p.2.ctype = "header"
          · rw [hhd hh] at h; cases h
          · exact Or.inr ⟨p.1, p.2, List.mem_cons_self p ps, hh, hcid rq h⟩
      · rcases h with ⟨i, ch, hmem, hty, hcid⟩
        exact Or.inr ⟨i, ch, List.mem_cons_of_mem p hmem, hty, hcid⟩
  intro rq hrq
  have hrq' : rq ∈ (chunks.enum.foldl (processChunk O lang doc_id)
      initExtractState).requirements := hrq
  rcases main chunks.enum initExtractState rq hrq' with h | h
  · simp [initExtractState] at h
  · exact h

/-- C10 witness: a functional-section header followed by a numbered list item
yields exactly one requirement, tagged with the list item's chunk id, typed by
the header's section. -/
theorem c10_header_no_requirement_witness :
    ((extractComponents oracleTrivial "en" "d1" c10Chunks).requirements.map
        (fun rq => (rq.req_id, rq.rtype, rq.chunk_id)) =
      [("req_d1_0", "functional", "d1_chunk_1")]) ∧
    ∀ rq ∈ (extractComponents oracleTrivial "en" "d1" c10Chunks).requirements,
      ∃ i ch, (i, ch) ∈ c10Chunks.enum ∧ ch.ctype ≠ "header" ∧
        rq.chunk_id = mkChunkId "d1" i :=
  ⟨by decide, c10_header_no_requirement oracleTrivial "en" "d1" c10Chunks⟩

/-- C1: evaluation at the failing input.  The build fails mid-way (here: on
the duplicate chunk primary key left by an earlier build) and the exception
propagates — but the error handler's `SET d.error = ...` references the
`error` property missing from the `Document` table `KuzuDBClient.connect`
creates, so the handler itself raises: the document is left in the
intermediate status `processing` with no error recorded, contradicting the
claim that any failure yields status `error` with a non-null message. -/
theorem c1_error_path_leaves_processing :
    (buildRagFromText oracleTrivial "en" c1Store "d1" "f.txt" c1Text
        (Except.ok [[1]]) "t1").2 =
      Except.error "Binder exception: Cannot find property error for d." ∧
    ∀ d ∈ (buildRagFromText oracleTrivial "en" c1Store "d1" "f.txt" c1Text
        (Except.ok [[1]]) "t1").1.documents,
      d.doc_id = "d1" ∧ d.status = "processing" ∧ d.error = none := by
  decide

/-- C2: evaluation at the failing input.  Reindexing a document that already
has one indexed chunk deletes only the `Document` node (`DETACH DELETE d`),
leaves the stale chunk `d1_chunk_0` in the store, and the rebuild then dies on
that chunk id's primary key — the call returns an error instead of a
`chunks_indexed` count, so calling it twice can never return equal counts, and
the stale chunk still coexists with nothing freshly built. -/
theorem c2_reindex_stale_chunk_failure :
    (reindexDocument oracleTrivial "en" c2Store "d1" true "f.txt"
        (Except.ok c1Text) (Except.ok [[1]]) "t2").2 =
      Except.error "Binder exception: Cannot find property error for d." ∧
    ∃ c ∈ (reindexDocument oracleTrivial "en" c2Store "d1" true "f.txt"
        (Except.ok c1Text) (Except.ok [[1]]) "t2").1.chunks,
      c.chunk_id = "d1_chunk_0" ∧ c.text = S "old" := by
  decide

/-- Edge inserts never touch the document table. -/
theorem addContains_docs (st : Store) (a b : String) :
    (addContains st a b).documents = st.documents := by
  unfold addContains; split <;> rfl

/-- Edge inserts never touch the document table. -/
theorem addPerforms_docs (st : Store) (a b : String) :
    (addPerforms st a b).documents = st.documents := by
  unfold addPerforms; split <;> rfl

/-- Edge inserts never touch the document table. -/
theorem addCommits_docs (st : Store) (a b : String) :
    (addCommits st a b).documents = st.documents := by
  unfold addCommits; split <;> rfl

/-- Edge inserts never touch the document table. -/
theorem addOnWhatPerformed_docs (st : Store) (a b : String) :
    (addOnWhatPerformed st a b).documents = st.documents := by
  unfold addOnWhatPerformed; split <;> rfl

/-- Edge inserts never touch the document table. -/
theorem addExpects_docs (st : Store) (a b : String) :
    (addExpects st a b).documents = st.documents := by
  unfold addExpects; split <;> rfl

/-- Edge inserts never touch the document table. -/
theorem addDescribedBy_docs (st : Store) (a b : String) :
    (addDescribedBy st a b).documents = st.documents := by
  unfold addDescribedBy; split <;> rfl

/-- Edge inserts never touch the document table. -/
theorem addReferences_docs (st : Store) (a b : String) :
    (addReferences st a b).documents = st.documents := by
  unfold addReferences; split <;> rfl

/-- Node creates never touch the document table. -/
theorem createChunk_docs (st : Store) (c : ChunkNode) (st' : Store)
    (h : createChunk st c = Except.ok st') : st'.documents = st.documents := by
  unfold createChunk at h
  split at h
  · cases h
  · cases h; rfl

/-- Node creates never touch the document table. -/
theorem createActor_docs (st : Store) (a : CompNode) (st' : Store)
    (h : createActor st a = Except.ok st') : st'.documents = st.documents := by
  unfold createActor at h
  split at h
  · cases h
  · cases h; rfl

/-- Node creates never touch the document table. -/
theorem createAction_docs (st : Store) (a : CompNode) (st' : Store)
    (h : createAction st a = Except.ok st') : st'.documents = st.documents := by
  unfold createAction at h
  split at h
  · cases h
  · cases h; rfl

/-- Node creates never touch the document table. -/
theorem createObject_docs (st : Store) (o : CompNode) (st' : Store)
    (h : createObject st o = Except.ok st') : st'.documents = st.documents := by
  unfold createObject at h
  split at h
  · cases h
  · cases h; rfl

/-- Node creates never touch the document table. -/
theorem createResult_docs (st : Store) (r : ResultNode) (st' : Store)
    (h : createResult st r = Except.ok st') : st'.documents = st.documents := by
  unfold createResult at h
  split at h
  · cases h
  · cases h; rfl

/-- Node creates never touch the document table. -/
theorem createEntity_docs (st : Store) (e : EntityNode) (st' : Store)
    (h : createEntity st e = Except.ok st') : st'.documents = st.documents := by
  unfold createEntity at h
  split at h
  · cases h
  · cases h; rfl

/-- Node creates never touch the document table. -/
theorem createRequirement_docs (st : Store) (r : ReqNode) (st' : Store)
    (h : createRequirement st r = Except.ok st') : st'.documents = st.documents := by
  unfold createRequirement at h
  split at h
  · cases h
  · cases h; rfl

/-- `bstep` with a document-preserving statement preserves documents across
one step. -/
theorem bstep_docs (r : Except (Store × String) Store)
    (f : Store → Except String Store)
    (hf : ∀ st st', f st = Except.ok st' → st'.documents = st.documents) :
    ∀ st', bstep r f = Except.ok st' →
      ∃ st, r = Except.ok st ∧ st'.documents = st.documents := by
  intro st' h
  unfold bstep at h
  cases r with
  | error e => cases h
  | ok st =>
    dsimp only at h
    cases hf' : f st with
    | error m => rw [hf'] at h; cases h
    | ok st'' =>
      rw [hf'] at h
      cases h
      exact ⟨st, rfl, hf st st' hf'⟩

/-- Folding document-preserving steps preserves documents. -/
theorem foldl_bstep_docs {α : Type}
    (g : Except (Store × String) Store → α → Except (Store × String) Store)
    (hg : ∀ r x st', g r x = Except.ok st' →
      ∃ st, r = Except.ok st ∧ st'.documents = st.documents) :
    ∀ (xs : List α) (r : Except (Store × String) Store) (st' : Store),
      xs.foldl g r = Except.ok st' →
      ∃ st, r = Except.ok st ∧ st'.documents = st.documents := by
  intro xs
  induction xs with
  | nil => intro r st' h; exact ⟨st', h, rfl⟩
  | cons x xs ih =>
    intro r st' h
    rw [List.foldl_cons] at h
    rcases ih (g r x) st' h with ⟨st1, hst1, he1⟩
    rcases hg r x st1 hst1 with ⟨st, hst, he2⟩
    exact ⟨st, hst, he1.trans he2⟩

/-- The chunk-creation loop preserves documents. -/
theorem buildChunkStep_docs (docId : String) (embeddings : List (List ℚ)) :
    ∀ (r : Except (Store × String) Store) (p : Nat × RawChunk) (st' : Store),
      buildChunkStep docId embeddings r p = Except.ok st' →
      ∃ st, r = Except.ok st ∧ st'.documents = st.documents := by
  intro r p st' h
  apply bstep_docs _ _ _ st' h
  intro st st'' hf
  cases hg : embeddings.get? p.1 with
  | none => rw [hg] at hf; cases hf
  | some emb =>
    rw [hg] at hf
    dsimp only at hf
    cases hc : createChunk st
        { chunk_id := mkChunkId docId p.1, doc_id := docId,
          text := p.2.text, embedding := some emb } with
    | error m => rw [hc] at hf; cases hf
    | ok stc =>
      rw [hc] at hf
      cases hf
      rw [addContains_docs]
      exact createChunk_docs _ _ _ hc

/-- The requirement-persistence loop preserves documents. -/
theorem buildReqStep_docs (docId now : String) :
    ∀ (r : Except (Store × String) Store) (rq : ReqDraft) (st' : Store),
      buildReqStep docId now r rq = Except.ok st' →
      ∃ st, r = Except.ok st ∧ st'.documents = st.documents := by
  intro r rq st' h
  apply bstep_docs _ _ _ st' h
  intro st st'' hf
  dsimp only at hf
  cases hc : createRequirement st
      { req_id := rq.req_id, rtype := rq.rtype, description := rq.description,
        created_at := now } with
  | error m => rw [hc] at hf; cases hf
  | ok stc =>
    rw [hc] at hf
    cases hf
    rw [addReferences_docs, addDescribedBy_docs]
    have h5 : ∀ s : Store,
        (match rq.result with
         | some res => addExpects s rq.req_id res
         | none => s).documents = s.documents := by
      intro s; cases rq.result <;> simp [addExpects_docs]
    have h4 : ∀ s : Store,
        (match rq.obj with
         | some o => addOnWhatPerformed s rq.req_id o
         | none => s).documents = s.documents := by
      intro s; cases rq.obj <;> simp [addOnWhatPerformed_docs]
    have h3 : ∀ s : Store,
        (match rq.action with
         | some a => addCommits s rq.req_id a
         | none => s).documents = s.documents := by
      intro s; cases rq.action <;> simp [addCommits_docs]
    have h2 : ∀ s : Store,
        (match rq.actor with
         | some a => addPerforms s rq.req_id a
         | none => s).documents = s.documents := by
      intro s; cases rq.actor <;> simp [addPerforms_docs]
    rw [h5, h4, h3, h2]
    exact createRequirement_docs _ _ _ hc

/-- Inside a successful build, the only statements that write the document
table are the opening `MERGE` and the closing `SET status = 'indexed'`. -/
theorem buildBody_docs (O : NlpOracle) (lang : String) (st0 : Store)
    (docId filename : String) (text : PyStr)
    (encodeRes : Except String (List (List ℚ))) (now : String) (st' : Store)
    (h : buildBody O lang st0 docId filename text encodeRes now = Except.ok st') :
    st'.documents = indexDocs docId now (mergeDocs docId filename now st0.documents) := by
  unfold buildBody at h
  cases encodeRes with
  | error e => cases h
  | ok embeddings =>
    dsimp only at h
    split at h
    · cases h
    · rename_i st8 heq
      cases h
      rcases foldl_bstep_docs _ (buildReqStep_docs docId now) _ _ _ heq with
        ⟨st7, hr7, he8⟩
      rcases foldl_bstep_docs _ (fun r x st' hx => bstep_docs r _
          (fun st st'' hf => createEntity_docs st _ st'' hf) st' hx) _ _ _ hr7 with
        ⟨st6, hr6, he7⟩
      rcases foldl_bstep_docs _ (fun r x st' hx => bstep_docs r _
          (fun st st'' hf => createResult_docs st _ st'' hf) st' hx) _ _ _ hr6 with
        ⟨st5, hr5, he6⟩
      rcases foldl_bstep_docs _ (fun r x st' hx => bstep_docs r _
          (fun st st'' hf => createObject_docs st _ st'' hf) st' hx) _ _ _ hr5 with
        ⟨st4, hr4, he5⟩
      rcases foldl_bstep_docs _ (fun r x st' hx => bstep_docs r _
          (fun st st'' hf => createAction_docs st _ st'' hf) st' hx) _ _ _ hr4 with
        ⟨st3, hr3, he4⟩
      rcases foldl_bstep_docs _ (fun r x st' hx => bstep_docs r _
          (fun st st'' hf => createActor_docs st _ st'' hf) st' hx) _ _ _ hr3 with
        ⟨st2, hr2, he3⟩
      rcases foldl_bstep_docs _ (buildChunkStep_docs docId embeddings) _ _ _ hr2 with
        ⟨st1, hr1, he2⟩
      cases hr1
      simp only [he8, he7, he6, he5, he4, he3, he2]

/-- C5 counterexample: a successful build leaves a previously stored error
message in place — the closing statement only sets `status` and `updated_at`
and never clears `error`. -/
theorem c5_error_not_cleared_cex :
    (buildRagFromText oracleTrivial "en" c5Store "d1" "f.txt" c1Text
        (Except.ok [[1]]) "t1").2 = Except.ok () ∧
    ∃ d ∈ (buildRagFromText oracleTrivial "en" c5Store "d1" "f.txt" c1Text
        (Except.ok [[1]]) "t1").1.documents,
      d.doc_id = "d1" ∧ d.status = "indexed" ∧ d.updated_at = "t1" ∧
        d.error = some "old failure" := by
  decide

/-- C5 amended: on a successful build the document table is exactly the
result of the opening `MERGE` followed by the closing
`SET status = 'indexed', updated_at = now`; the built document therefore ends
with status `indexed` and a fresh `updated_at`, while the `error` property of
every document is untouched. -/
theorem c5_success_status (O : NlpOracle) (lang : String) (st0 : Store)
    (docId filename : String) (text : PyStr)
    (encodeRes : Except String (List (List ℚ))) (now : String) (st' : Store)
    (h : buildRagFromText O lang st0 docId filename text encodeRes now =
      (st', Except.ok ())) :
    st'.documents = indexDocs docId now (mergeDocs docId filename now st0.documents) ∧
    (∀ d ∈ st'.documents, d.doc_id = docId →
      d.status = "indexed" ∧ d.updated_at = now) ∧
    st'.documents.map (fun d => d.error) =
      (mergeDocs docId filename now st0.documents).map (fun d => d.error) := by
  have hok : buildBody O lang st0 docId filename text encodeRes now =
      Except.ok st' := by
    unfold buildRagFromText at h
    cases hb : buildBody O lang st0 docId filename text encodeRes now with
    | ok stB => rw [hb] at h; cases h; rfl
    | error e =>
      rcases e with ⟨stp, msg⟩
      rw [hb] at h
      dsimp only at h
      cases hset : setDocErrorStatus stp docId now msg with
      | ok st2 => rw [hset] at h; cases h
      | error m2 => rw [hset] at h; cases h
  have hdocs := buildBody_docs O lang st0 docId filename text encodeRes now st' hok
  refine ⟨hdocs, ?_, ?_⟩
  · intro d hd hid
    rw [hdocs] at hd
    unfold indexDocs at hd
    rcases List.mem_map.mp hd with ⟨d0, _, rfl⟩
    by_cases h0 : d0.doc_id = docId
    · rw [if_pos h0]
      exact ⟨rfl, rfl⟩
    · rw [if_neg h0] at hid ⊢
      exact absurd hid h0
  · rw [hdocs]
    unfold indexDocs
    rw [List.map_map]
    apply List.map_congr_left
    intro d _
    by_cases h0 : d.doc_id = docId <;> simp [h0]

/-- C5 witness: the amended success-path properties at a concrete build. -/
theorem c5_success_status_witness :
    buildRagFromText oracleTrivial "en" c5Store "d1" "f.txt" c1Text
        (Except.ok [[1]]) "t1" =
      ((buildRagFromText oracleTrivial "en" c5Store "d1" "f.txt" c1Text
          (Except.ok [[1]]) "t1").1, Except.ok ()) ∧
    ((buildRagFromText oracleTrivial "en" c5Store "d1" "f.txt" c1Text
        (Except.ok [[1]]) "t1").1.documents =
      indexDocs "d1" "t1" (mergeDocs "d1" "f.txt" "t1" c5Store.documents) ∧
    (∀ d ∈ (buildRagFromText oracleTrivial "en" c5Store "d1" "f.txt" c1Text
        (Except.ok [[1]]) "t1").1.documents, d.doc_id = "d1" →
      d.status = "indexed" ∧ d.updated_at = "t1") ∧
    (buildRagFromText oracleTrivial "en" c5Store "d1" "f.txt" c1Text
        (Except.ok [[1]]) "t1").1.documents.map (fun d => d.error) =
      (mergeDocs "d1" "f.txt" "t1" c5Store.documents).map (fun d => d.error)) := by
  have h2 : (buildRagFromText oracleTrivial "en" c5Store "d1" "f.txt" c1Text
      (Except.ok [[1]]) "t1").2 = Except.ok () := by decide
  have h : buildRagFromText oracleTrivial "en" c5Store "d1" "f.txt" c1Text
      (Except.ok [[1]]) "t1" =
      ((buildRagFromText oracleTrivial "en" c5Store "d1" "f.txt" c1Text
          (Except.ok [[1]]) "t1").1, Except.ok ()) := by
    rw [← h2]
  exact ⟨h, c5_success_status oracleTrivial "en" c5Store "d1" "f.txt" c1Text
    (Except.ok [[1]]) "t1" _ h⟩

/-- `x ↦ x * |x|` is strictly monotone on `ℝ`. -/
theorem mul_abs_lt_mul_abs (x y : ℝ) (h : x < y) : x * |x| < y * |y| := by
  rcases le_or_lt 0 x with hx | hx
  · have hy : 0 < y := lt_of_le_of_lt hx h
    rw [abs_of_nonneg hx, abs_of_pos hy]
    nlinarith
  · rcases le_or_lt 0 y with hy | hy
    · have hxx : x * |x| < 0 := by rw [abs_of_neg hx]; nlinarith
      have hyy : 0 ≤ y * |y| := mul_nonneg hy (abs_nonneg y)
      linarith
    · rw [abs_of_neg hx, abs_of_neg hy]
      nlinarith

/-- Comparing `x * |x|` is comparing `x`. -/
theorem mul_abs_le_mul_abs_iff (x y : ℝ) : x * |x| ≤ y * |y| ↔ x ≤ y := by
  constructor
  · intro h
    by_contra hc
    push_neg at hc
    exact absurd h (not_le.mpr (mul_abs_lt_mul_abs y x hc))
  · intro h
    rcases eq_or_lt_of_le h with rfl | hlt
    · exact le_refl _
    · exact (mul_abs_lt_mul_abs x y hlt).le

/-- The rational sort key and the real cosine similarity induce the same order
on candidates with positive norms (the query being fixed). -/
theorem simKey_le_iff_cosine (q e1 e2 : List ℚ) (hq : 0 < dotQ q q)
    (h1 : 0 < dotQ e1 e1) (h2 : 0 < dotQ e2 e2) :
    (simKey q e2 ≤ simKey q e1 ↔ cosineSim q e2 ≤ cosineSim q e1) := by
  have key : ∀ a s : ℝ, 0 < s →
      a * |a| / s = a / Real.sqrt s * |a / Real.sqrt s| := by
    intro a s hs
    rw [abs_div, abs_of_nonneg (Real.sqrt_nonneg s),
      div_mul_div_comm, Real.mul_self_sqrt hs.le]
  have hs1 : (0 : ℝ) < ((dotQ e1 e1 : ℚ) : ℝ) := by exact_mod_cast h1
  have hs2 : (0 : ℝ) < ((dotQ e2 e2 : ℚ) : ℝ) := by exact_mod_cast h2
  have hsq : (0 : ℝ) < Real.sqrt ((dotQ q q : ℚ) : ℝ) :=
    Real.sqrt_pos.mpr (by exact_mod_cast hq)
  have hcast : ∀ e : List ℚ, ((simKey q e : ℚ) : ℝ) =
      ((dotQ q e : ℚ) : ℝ) * |((dotQ q e : ℚ) : ℝ)| / ((dotQ e e : ℚ) : ℝ) := by
    intro e
    unfold simKey
    push_cast
    ring
  have hcos : ∀ e : List ℚ, cosineSim q e =
      ((dotQ q e : ℚ) : ℝ) / Real.sqrt ((dotQ e e : ℚ) : ℝ) /
        Real.sqrt ((dotQ q q : ℚ) : ℝ) := by
    intro e
    unfold cosineSim
    rw [div_div, mul_comm]
  have main : (simKey q e2 ≤ simKey q e1) ↔
      ((dotQ q e2 : ℚ) : ℝ) / Real.sqrt ((dotQ e2 e2 : ℚ) : ℝ) ≤
        ((dotQ q e1 : ℚ) : ℝ) / Real.sqrt ((dotQ e1 e1 : ℚ) : ℝ) := by
    rw [← Rat.cast_le (K := ℝ), hcast e1, hcast e2, key _ _ hs1, key _ _ hs2,
      mul_abs_le_mul_abs_iff]
  rw [hcos e1, hcos e2, div_le_div_iff_of_pos_right hsq]
  exact main

/-- The candidate rows returned by the similarity query are ordered by
descending cosine similarity (positive norms assumed, as for real
embeddings). -/
theorem topChunks_sorted (st : Store) (q : List ℚ) (fd : Option String)
    (tk : Nat) (hq : 0 < dotQ q q)
    (hc : ∀ c ∈ st.chunks, ∀ e, c.embedding = some e → 0 < dotQ e e) :
    (topChunks st q fd tk).Pairwise (fun a b =>
      cosineSim q (b.embedding.getD []) ≤ cosineSim q (a.embedding.getD [])) := by
  have hsorted : (List.insertionSort (keyOrder (chunkSortKey q))
      (candidateChunks st fd)).Pairwise (keyOrder (chunkSortKey q)) :=
    List.sorted_insertionSort _ _
  have htake : (topChunks st q fd tk).Pairwise (keyOrder (chunkSortKey q)) :=
    hsorted.sublist (List.take_sublist _ _)
  refine htake.imp_of_mem ?_
  intro a b ha hb hr
  have hmem : ∀ c : ChunkNode, c ∈ topChunks st q fd tk →
      c ∈ st.chunks ∧ c.embedding.isSome := by
    intro c hcm
    have h1 : c ∈ List.insertionSort (keyOrder (chunkSortKey q))
        (candidateChunks st fd) := (List.take_sublist _ _).subset hcm
    have h2 : c ∈ candidateChunks st fd := (List.mem_insertionSort _).mp h1
    have h3 := List.mem_filter.mp h2
    refine ⟨h3.1, ?_⟩
    have := h3.2
    simp only [Bool.and_eq_true] at this
    exact this.1
  rcases hmem a ha with ⟨haS, haE⟩
  rcases hmem b hb with ⟨hbS, hbE⟩
  rcases Option.isSome_iff_exists.mp haE with ⟨ea, hea⟩
  rcases Option.isSome_iff_exists.mp hbE with ⟨eb, heb⟩
  have hka : chunkSortKey q a = simKey q ea := by rw [chunkSortKey, hea]; rfl
  have hkb : chunkSortKey q b = simKey q eb := by rw [chunkSortKey, heb]; rfl
  have hr' : simKey q eb ≤ simKey q ea := by
    have := hr
    unfold keyOrder at this
    rw [hka, hkb] at this
    exact this
  have := (simKey_le_iff_cosine q ea eb hq (hc a haS ea hea) (hc b hbS eb heb)).mp hr'
  rw [hea, heb]
  simpa using this

/-- With no `Described_in` edges in the store (the graph builder never creates
any) the enrichment query cannot raise. -/
theorem gatherContext_ok (st : Store) (hdi : st.describedInEdges = [])
    (chunkId : String) : ∃ ctx, gatherContext st chunkId = Except.ok ctx := by
  unfold gatherContext
  rw [hdi]
  simp

/-- Transport a pointwise projection along `List.Forall₂`. -/
theorem forall₂_map_eq {α β γ : Type} {R : α → β → Prop} {f : β → γ} {g : α → γ}
    (h : ∀ x y, R x y → f y = g x) :
    ∀ {l1 : List α} {l2 : List β}, List.Forall₂ R l1 l2 → l2.map f = l1.map g := by
  intro l1 l2 hf
  induction hf with
  | nil => rfl
  | cons hxy _ ih => simp [ih, h _ _ hxy]

/-- C3 amended: retrieval returns at most `top_k` chunks, ordered by
descending cosine similarity between the query embedding and each candidate's
embedding; no similarity threshold enters anywhere (the function has no such
parameter). -/
theorem c3_ranking_topk (queryText : PyStr) (st : Store)
    (connectRes : Except String Store) (qv : List ℚ)
    (detectRes : Except String String) (pl fd : Option String) (tk : Nat)
    (hmax : ¬ (1000000 < maxAbsQ qv))
    (hq : 0 < dotQ qv qv)
    (hc : ∀ c ∈ st.chunks, ∀ e, c.embedding = some e → 0 < dotQ e e)
    (hdi : st.describedInEdges = []) :
    ∃ l, retrieveRelevantChunks queryText (some st) connectRes (Except.ok qv)
        detectRes pl fd tk = Except.ok l ∧
      l.length ≤ tk ∧
      l.map (fun r => r.chunk_id) =
        (topChunks st qv fd tk).map (fun c => c.chunk_id) ∧
      (topChunks st qv fd tk).Pairwise (fun a b =>
        cosineSim qv (b.embedding.getD []) ≤ cosineSim qv (a.embedding.getD [])) := by
  have hnorm : normalizeQuery qv = qv := by
    unfold normalizeQuery
    rw [if_neg hmax]
  have hlen : (topChunks st qv fd tk).length ≤ tk := by
    unfold topChunks
    exact List.length_take_le _ _
  refine ⟨retrieveBody st (Except.ok qv) detectRes pl fd tk, rfl, ?_⟩
  have hpair := topChunks_sorted st qv fd tk hq hc
  unfold retrieveBody
  dsimp only
  rw [hnorm]
  set hits := (topChunks st qv fd tk).map (fun c =>
    ({ text := c.text, score := 1, doc_id := c.doc_id,
       chunk_id := c.chunk_id } : ChunkHit)) with hhits
  by_cases hemp : hits.isEmpty
  · rw [if_pos hemp]
    have h0 : topChunks st qv fd tk = [] := by
      have := List.isEmpty_iff.mp hemp
      rw [hhits] at this
      exact List.map_eq_nil_iff.mp this
    rw [h0]
    exact ⟨Nat.zero_le _, by simp, by simp⟩
  · rw [if_neg hemp]
    have htotal : ∀ hit ∈ hits, ∃ y,
        mkEnriched st (contextLang pl detectRes) hit = Except.ok y := by
      intro hit _
      rcases gatherContext_ok st hdi hit.chunk_id with ⟨ctx, hctx⟩
      exact ⟨_, by unfold mkEnriched; rw [hctx]; rfl⟩
    rcases mapM_except_total _ hits htotal with ⟨ys, hys⟩
    rw [hys]
    have hfa := mapM_except_forall₂ _ hits ys hys
    have hproj : ys.map (fun r => r.chunk_id) =
        hits.map (fun hit => hit.chunk_id) := by
      refine forall₂_map_eq ?_ hfa
      intro hit y hy
      unfold mkEnriched at hy
      cases hctx : gatherContext st hit.chunk_id with
      | error e => rw [hctx] at hy; cases hy
      | ok ctx =>
        rw [hctx] at hy
        cases hy
        rfl
    have hlen2 : ys.length = hits.length := hfa.length_eq.symm
    refine ⟨?_, ?_, hpair⟩
    · rw [hlen2, hhits, List.length_map]
      exact hlen
    · rw [hproj, hhits, List.map_map]
      rfl

/-- C3 counterexample: with a provided similarity threshold of `0.9`, a chunk
of cosine similarity `0` is still returned — no threshold filtering exists in
`retrieve_relevant_chunks` (the function has no such parameter). -/
theorem c3_threshold_not_applied_cex :
    (∃ l, retrieveRelevantChunks (S "q") (some c3CexStore) (Except.error "unused")
        (Except.ok [1, 0]) (Except.ok "en") none none 5 = Except.ok l ∧
      l.map (fun r => r.chunk_id) = ["c1"]) ∧
    c3CexStore.chunks.map (fun c => c.embedding) = [some [0, 1]] ∧
    cosineSim [1, 0] [0, 1] < 9 / 10 := by
  refine ⟨⟨retrieveBody c3CexStore (Except.ok [1, 0]) (Except.ok "en") none none 5,
    rfl, by decide⟩, by decide, ?_⟩
  have h0 : dotQ [1, 0] [0, 1] = 0 := by norm_num [dotQ]
  unfold cosineSim
  rw [h0]
  norm_num

/-- C3 witness: the amended ranking statement at a concrete two-chunk
store. -/
theorem c3_ranking_topk_witness :
    (¬ (1000000 < maxAbsQ [1, 0]) ∧ 0 < dotQ ([1, 0] : List ℚ) [1, 0] ∧
      c3WStore.describedInEdges = []) ∧
    ∃ l, retrieveRelevantChunks (S "q") (some c3WStore) (Except.error "unused")
        (Except.ok [1, 0]) (Except.ok "en") none none 2 = Except.ok l ∧
      l.length ≤ 2 ∧
      l.map (fun r => r.chunk_id) =
        (topChunks c3WStore [1, 0] none 2).map (fun c => c.chunk_id) ∧
      (topChunks c3WStore [1, 0] none 2).Pairwise (fun a b =>
        cosineSim [1, 0] (b.embedding.getD []) ≤
          cosineSim [1, 0] (a.embedding.getD [])) :=
  ⟨⟨by decide, by norm_num [dotQ], rfl⟩,
    c3_ranking_topk (S "q") c3WStore (Except.error "unused") [1, 0]
      (Except.ok "en") none none 2 (by decide) (by norm_num [dotQ])
      (by intro c hc e he; fin_cases hc <;> simp_all <;> norm_num [dotQ, ← he]) rfl⟩

/-- `subseg` is reflexive. -/
theorem subseg_refl (s : PyStr) : subseg s s := ⟨[], [], by simp⟩

/-- `subseg` is transitive. -/
theorem subseg_trans {a b c : PyStr} (h1 : subseg a b) (h2 : subseg b c) :
    subseg a c := by
  rcases h1 with ⟨u1, v1, rfl⟩
  rcases h2 with ⟨u2, v2, rfl⟩
  exact ⟨u2 ++ u1, v1 ++ v2, by simp⟩

/-- `dropWhile` removes a prefix. -/
theorem exists_dropWhile_append (p : Char → Bool) :
    ∀ l : PyStr, ∃ u, l = u ++ l.dropWhile p := by
  intro l
  induction l with
  | nil => exact ⟨[], rfl⟩
  | cons c t ih =>
    by_cases hc : p c = true
    · rcases ih with ⟨u, hu⟩
      exact ⟨c :: u, by rw [List.dropWhile_cons_of_pos hc]; simpa using hu⟩
    · exact ⟨[], by simp [List.dropWhile_cons_of_neg hc]⟩

/-- `str.strip()` keeps a contiguous middle part. -/
theorem pyStrip_subseg (s : PyStr) : subseg (pyStrip s) s := by
  rcases exists_dropWhile_append isPySpace s with ⟨u, hu⟩
  rcases exists_dropWhile_append isPySpace (s.dropWhile isPySpace).reverse with ⟨w, hw⟩
  have h2 : s.dropWhile isPySpace = pyStrip s ++ w.reverse := by
    have h3 := congrArg List.reverse hw
    rw [List.reverse_reverse, List.reverse_append] at h3
    exact h3
  refine ⟨u, w.reverse, ?_⟩
  calc s = u ++ s.dropWhile isPySpace := hu
    _ = u ++ (pyStrip s ++ w.reverse) := by rw [h2]
    _ = u ++ pyStrip s ++ w.reverse := (List.append_assoc u (pyStrip s) w.reverse).symm

/-- Dropping a prefix keeps a contiguous part. -/
theorem drop_subseg (t : PyStr) (n : Nat) : subseg (t.drop n) t :=
  ⟨t.take n, [], by simp⟩

/-- Removing a numbered-list marker keeps a contiguous part. -/
theorem stripNumbering_subseg (s : PyStr) : subseg (stripNumbering s) s := by
  unfold stripNumbering
  cases numberedLen s with
  | none => exact subseg_refl s
  | some n => exact drop_subseg s n

/-- Every segment produced by the splitter occurs in the input. -/
theorem gsplitAux_subseg (sep : Char → PyStr → Option Nat) :
    ∀ (fuel : Nat) (s acc x : PyStr), x ∈ gsplitAux sep fuel s acc →
      subseg x (acc.reverse ++ s) := by
  intro fuel
  induction fuel with
  | zero =>
    intro s acc x hx
    cases s with
    | nil =>
      simp only [gsplitAux, List.mem_singleton] at hx
      subst hx
      exact ⟨[], [], by simp⟩
    | cons c rest =>
      simp only [gsplitAux, List.mem_singleton] at hx
      subst hx
      exact subseg_refl _
  | succ fuel ih =>
    intro s acc x hx
    cases s with
    | nil =>
      simp only [gsplitAux, List.mem_singleton] at hx
      subst hx
      exact ⟨[], [], by simp⟩
    | cons c rest =>
      simp only [gsplitAux] at hx
      cases hsep : sep c rest with
      | some n =>
        rw [hsep] at hx
        rcases List.mem_cons.mp hx with rfl | hx'
        · exact ⟨[], c :: rest, by simp⟩
        · have h1 := ih (rest.drop n) [] x hx'
          simp only [List.reverse_nil, List.nil_append] at h1
          refine subseg_trans h1 (subseg_trans (drop_subseg rest n) ?_)
          exact ⟨acc.reverse ++ [c], [], by simp⟩
      | none =>
        rw [hsep] at hx
        have h1 := ih rest (c :: acc) x hx
        simpa using h1

/-- Prepending text preserves ordered disjoint occurrence. -/
theorem disjOcc_mono (u : PyStr) {t : PyStr} {segs : List PyStr}
    (h : DisjOcc t segs) : DisjOcc (u ++ t) segs := by
  induction h with
  | nil t => exact DisjOcc.nil _
  | cons pre seg rest segs _ ih =>
    have := DisjOcc.cons (u ++ pre) seg rest segs (by assumption)
    simpa using this

/-- The splitter's segments occur in the input in order, disjointly. -/
theorem gsplitAux_disjOcc (sep : Char → PyStr → Option Nat) :
    ∀ (fuel : Nat) (s acc : PyStr),
      DisjOcc (acc.reverse ++ s) (gsplitAux sep fuel s acc) := by
  intro fuel
  induction fuel with
  | zero =>
    intro s acc
    cases s with
    | nil =>
      simp only [gsplitAux]
      have := DisjOcc.cons [] acc.reverse [] [] (DisjOcc.nil [])
      simpa using this
    | cons c rest =>
      simp only [gsplitAux]
      have := DisjOcc.cons [] (acc.reverse ++ c :: rest) [] [] (DisjOcc.nil [])
      simpa using this
  | succ fuel ih =>
    intro s acc
    cases s with
    | nil =>
      simp only [gsplitAux]
      have := DisjOcc.cons [] acc.reverse [] [] (DisjOcc.nil [])
      simpa using this
    | cons c rest =>
      simp only [gsplitAux]
      cases hsep : sep c rest with
      | some n =>
        have h1 := ih (rest.drop n) []
        simp only [List.reverse_nil, List.nil_append] at h1
        have h2 : DisjOcc (c :: rest) (gsplitAux sep fuel (rest.drop n) []) := by
          have := disjOcc_mono (c :: rest.take n) h1
          simpa [List.take_append_drop] using this
        have := DisjOcc.cons [] acc.reverse (c :: rest)
          (gsplitAux sep fuel (rest.drop n) []) h2
        simpa using this
      | none =>
        have h1 := ih rest (c :: acc)
        simpa using h1

/-- Replace the head segment by a contiguous part of it. -/
theorem disjOcc_head_sub {t s s' : PyStr} {segs : List PyStr}
    (h : DisjOcc t (s :: segs)) (hs : subseg s' s) : DisjOcc t (s' :: segs) := by
  cases h with
  | cons pre _ rest _ hrest =>
    rcases hs with ⟨u, v, rfl⟩
    have := DisjOcc.cons (pre ++ u) s' (v ++ rest) segs (disjOcc_mono v hrest)
    simpa using this

/-- Drop the head segment. -/
theorem disjOcc_tail {t s : PyStr} {segs : List PyStr}
    (h : DisjOcc t (s :: segs)) : DisjOcc t segs := by
  cases h with
  | cons pre _ rest _ hrest =>
    have := disjOcc_mono (pre ++ s) hrest
    simpa using this

/-- Stripping each segment and dropping the empty ones preserves ordered
disjoint occurrence. -/
theorem disjOcc_strip_filter :
    ∀ (segs : List PyStr) (t : PyStr), DisjOcc t segs →
      DisjOcc t ((segs.map pyStrip).filter (fun c => !c.isEmpty)) := by
  intro segs
  induction segs with
  | nil => intro t _; exact DisjOcc.nil t
  | cons s segs ih =>
    intro t h
    have hstrip : DisjOcc t (pyStrip s :: segs) :=
      disjOcc_head_sub h (pyStrip_subseg s)
    simp only [List.map_cons, List.filter_cons]
    by_cases he : ((!(pyStrip s).isEmpty) = true)
    · rw [if_pos he]
      cases hstrip with
      | cons pre _ rest _ hrest =>
        exact DisjOcc.cons pre (pyStrip s) rest _ (ih rest hrest)
    · rw [if_neg he]
      exact ih t (disjOcc_tail hstrip)

/-- `isPrefixOf` as an append decomposition. -/
theorem isPrefixOf_iff_append (p : PyStr) :
    ∀ l : PyStr, p.isPrefixOf l = true ↔ ∃ r, l = p ++ r := by
  induction p with
  | nil => intro l; simp [List.isPrefixOf]
  | cons c p ih =>
    intro l
    cases l with
    | nil => simp [List.isPrefixOf]
    | cons d t =>
      simp only [List.isPrefixOf, Bool.and_eq_true, beq_iff_eq, ih t]
      constructor
      · rintro ⟨rfl, r, rfl⟩
        exact ⟨r, rfl⟩
      · rintro ⟨r, h⟩
        cases h
        exact ⟨rfl, r, rfl⟩

/-- A successful `firstMatchPos` marks an actual occurrence. -/
theorem fmp_some_drop (pat : PyStr) :
    ∀ (h : PyStr) (j : Nat), firstMatchPos pat h = some j →
      ∃ rest, h.drop j = pat ++ rest := by
  intro h
  induction h with
  | nil =>
    intro j hj
    unfold firstMatchPos at hj
    split at hj
    · cases hj
      rcases (isPrefixOf_iff_append pat []).mp (by assumption) with ⟨r, hr⟩
      exact ⟨r, hr⟩
    · cases hj
  | cons c t ih =>
    intro j hj
    unfold firstMatchPos at hj
    split at hj
    · cases hj
      rcases (isPrefixOf_iff_append pat (c :: t)).mp (by assumption) with ⟨r, hr⟩
      exact ⟨r, hr⟩
    · cases hfm : firstMatchPos pat t with
      | none => rw [hfm] at hj; cases hj
      | some j' =>
        rw [hfm] at hj
        simp only [Option.map_some', Option.some.injEq] at hj
        subst hj
        rcases ih j' hfm with ⟨rest, hrest⟩
        exact ⟨rest, hrest⟩

/-- `firstMatchPos` finds a position no later than any actual occurrence. -/
theorem fmp_le (pat : PyStr) :
    ∀ (h : PyStr) (i : Nat), pat.isPrefixOf (h.drop i) = true →
      ∃ j, j ≤ i ∧ firstMatchPos pat h = some j := by
  intro h
  induction h with
  | nil =>
    intro i hp
    rw [List.drop_nil] at hp
    refine ⟨0, Nat.zero_le i, ?_⟩
    unfold firstMatchPos
    rw [if_pos hp]
  | cons c t ih =>
    intro i hp
    by_cases h0 : pat.isPrefixOf (c :: t) = true
    · refine ⟨0, Nat.zero_le i, ?_⟩
      unfold firstMatchPos
      rw [if_pos h0]
    · cases i with
      | zero => rw [List.drop_zero] at hp; exact absurd hp h0
      | succ i' =>
        rw [List.drop_succ_cons] at hp
        rcases ih i' hp with ⟨j, hle, hfm⟩
        refine ⟨j + 1, Nat.succ_le_succ hle, ?_⟩
        unfold firstMatchPos
        rw [if_neg h0, hfm]
        rfl

/-- An occurrence at `drop j` makes the Python slice
`[j : j + len(pat)]` recover `pat`. -/
theorem pySlice_of_drop (h pat rest : PyStr) (j : Nat)
    (hd : h.drop j = pat ++ rest) :
    pySlice h (j : Int) ((j : Int) + pat.length) = pat := by
  have hb : ((j : Int) + pat.length) = ((j + pat.length : Nat) : Int) := by
    push_cast; ring
  rw [hb]
  unfold pySlice pySliceIx
  have hj0 : ¬ ((j : Int) < 0) := by omega
  have hjp0 : ¬ (((j + pat.length : Nat) : Int) < 0) := by omega
  rw [if_neg hj0, if_neg hjp0, Int.toNat_natCast, Int.toNat_natCast]
  by_cases hjl : j ≤ h.length
  · have hlen : (h.drop j).length = h.length - j := List.length_drop j h
    rw [hd, List.length_append] at hlen
    have hle2 : j + pat.length ≤ h.length := by omega
    rw [Nat.min_eq_left hjl, Nat.min_eq_left hle2]
    rw [List.drop_take]
    rw [hd]
    have : j + pat.length - j = pat.length := by omega
    rw [this, List.take_left]
  · have hdr : h.drop j = [] := List.drop_eq_nil_of_le (by omega)
    rw [hdr] at hd
    have hpat : pat = [] := by
      rcases List.append_eq_nil.mp hd.symm with ⟨h1, _⟩
      exact h1
    subst hpat
    simp

/-- Inversion for `DisjOcc` at a cons. -/
theorem disjOcc_cons_inv {t s : PyStr} {segs : List PyStr}
    (h : DisjOcc t (s :: segs)) :
    ∃ pre r, t = pre ++ s ++ r ∧ DisjOcc r segs := by
  cases h with
  | cons pre _ r _ hr => exact ⟨pre, r, rfl, hr⟩

/-- The paragraph branch's `text.find(c, last_end)` loop: when the remaining
raw chunks occur disjointly in order after `pos`, every produced chunk slices
back to its own text. -/
theorem paraGo_slice (text : PyStr) :
    ∀ (raws : List PyStr) (pos : Nat), pos ≤ text.length →
      DisjOcc (text.drop pos) raws →
      ∀ ch ∈ paraGo text raws (pos : Int),
        pySlice text ch.start ch.stop = ch.text := by
  intro raws
  induction raws with
  | nil =>
    intro pos _ _ ch hch
    simp [paraGo] at hch
  | cons c rest ih =>
    intro pos hpos hocc ch hch
    rcases disjOcc_cons_inv hocc with ⟨pre, r, heq, hr⟩
    have hplen : text.length - pos = pre.length + (c.length + r.length) := by
      have := congrArg List.length heq
      simpa [List.length_drop, List.length_append] using this
    have hpref : c.isPrefixOf ((text.drop pos).drop pre.length) = true := by
      rw [heq, List.append_assoc, List.drop_left]
      exact (isPrefixOf_iff_append c (c ++ r)).mpr ⟨r, rfl⟩
    rcases fmp_le c (text.drop pos) pre.length hpref with ⟨j, hjle, hfm⟩
    rcases fmp_some_drop c (text.drop pos) j hfm with ⟨rest', hrest'⟩
    have hdropj : text.drop (j + pos) = c ++ rest' := by
      rw [List.drop_drop, Nat.add_comm pos j] at hrest'
      exact hrest'
    have hfind : pyFindFrom text c (pos : Int) = ((j + pos : Nat) : Int) := by
      have hstart : (if (pos : Int) < 0 then ((pos : Int) + text.length).toNat
          else (pos : Int).toNat) = pos := by
        rw [if_neg (by omega)]
        exact Int.toNat_natCast pos
      unfold pyFindFrom pyFindFromNat
      rw [hstart, if_neg (by omega), hfm]
      show ((pos + j : Nat) : Int) = ((j + pos : Nat) : Int)
      omega
    have hjlen : j + pos + c.length ≤ text.length := by
      have := congrArg List.length hdropj
      simp only [List.length_drop, List.length_append] at this
      omega
    rcases List.mem_cons.mp hch with rfl | htail
    · dsimp only
      rw [hfind]
      exact pySlice_of_drop text c rest' (j + pos) hdropj
    · have harg : pyFindFrom text c (pos : Int) + (c.length : Int) =
          ((j + pos + c.length : Nat) : Int) := by
        rw [hfind]
        push_cast
        ring
      have htail' : ch ∈ paraGo text rest ((j + pos + c.length : Nat) : Int) := by
        rw [show paraGo text rest (pyFindFrom text c (pos : Int) + (c.length : Int)) =
          paraGo text rest ((j + pos + c.length : Nat) : Int) from by rw [harg]] at htail
        exact htail
      have hb : text.drop (pos + (pre.length + c.length)) = r := by
        have h1 : (text.drop pos).drop (pre.length + c.length) = r := by
          rw [heq]
          exact List.drop_left' (by rw [List.length_append])
        rw [List.drop_drop] at h1
        exact h1
      have hocc' : DisjOcc (text.drop (j + pos + c.length)) rest := by
        have hsplit : text.drop (j + pos + c.length) =
            (text.drop (j + pos + c.length)).take
              (pos + (pre.length + c.length) - (j + pos + c.length)) ++
              text.drop (pos + (pre.length + c.length)) := by
          conv_lhs => rw [← List.take_append_drop
            (pos + (pre.length + c.length) - (j + pos + c.length))
            (text.drop (j + pos + c.length))]
          rw [List.drop_drop]
          congr 2
          omega
        rw [hsplit, hb]
        exact disjOcc_mono _ hr
      exact ih (j + pos + c.length) hjlen hocc' ch htail'

/-- Segments of the splitter occur in the input. -/
theorem gsplit_subseg (sep : Char → PyStr → Option Nat) (text x : PyStr)
    (hx : x ∈ gsplit sep text) : subseg x text := by
  have := gsplitAux_subseg sep text.length text [] x hx
  simpa using this

/-- Every chunk of the layout branch slices back to its own text (`start` is
located by `text.find(chunk, 0)`). -/
theorem layoutChunks_slice (text : PyStr) :
    ∀ ch ∈ layoutChunks text, pySlice text ch.start ch.stop = ch.text := by
  intro ch hch
  unfold layoutChunks at hch
  rcases List.mem_filterMap.mp hch with ⟨e, he, hfe⟩
  dsimp only at hfe
  split at hfe
  · cases hfe
  · cases hfe
    unfold layoutElements at he
    rcases List.mem_map.mp he with ⟨p, hp, hge⟩
    rcases List.mem_filter.mp hp with ⟨hp1, _⟩
    rcases List.mem_map.mp hp1 with ⟨seg, hseg, hpseg⟩
    have hsub2 : subseg e.2 p := by
      by_cases hnum : (numberedLen p).isSome = true
      · rw [← hge, if_pos hnum]
        exact stripNumbering_subseg p
      · rw [← hge, if_neg hnum]
        exact subseg_refl p
    have hsubc : subseg (pyStrip e.2) text :=
      subseg_trans (pyStrip_subseg e.2)
        (subseg_trans hsub2
          (subseg_trans (hpseg ▸ pyStrip_subseg seg)
            (gsplit_subseg sepLayout text seg hseg)))
    rcases hsubc with ⟨u, v, hutext⟩
    have hpref : (pyStrip e.2).isPrefixOf (text.drop u.length) = true := by
      rw [hutext, List.append_assoc, List.drop_left]
      exact (isPrefixOf_iff_append _ _).mpr ⟨v, rfl⟩
    rcases fmp_le (pyStrip e.2) text u.length hpref with ⟨j, _, hfm⟩
    rcases fmp_some_drop (pyStrip e.2) text j hfm with ⟨rest, hrest⟩
    have hfind : pyFindFrom text (pyStrip e.2) 0 = ((j : Nat) : Int) := by
      have hstart : (if (0 : Int) < 0 then ((0 : Int) + text.length).toNat
          else (0 : Int).toNat) = 0 := by norm_num
      unfold pyFindFrom pyFindFromNat
      rw [hstart, if_neg (by omega), List.drop_zero, hfm]
      show ((0 + j : Nat) : Int) = ((j : Nat) : Int)
      omega
    dsimp only
    rw [hfind]
    exact pySlice_of_drop text (pyStrip e.2) rest j hrest

/-- Every chunk of the segmentation stage slices back to its own text. -/
theorem segmentChunks_slice (text : PyStr) :
    ∀ ch ∈ segmentChunks text, pySlice text ch.start ch.stop = ch.text := by
  intro ch hch
  simp only [segmentChunks] at hch
  split at hch
  · unfold paraChunks at hch
    have hocc : DisjOcc (text.drop 0)
        (((gsplit sepBlankLines text).map pyStrip).filter (fun c => !c.isEmpty)) := by
      have hbase : DisjOcc text (gsplit sepBlankLines text) := by
        have := gsplitAux_disjOcc sepBlankLines text.length text []
        simpa using this
      exact disjOcc_strip_filter _ _ hbase
    exact paraGo_slice text _ 0 (Nat.zero_le _) hocc ch hch
  · exact layoutChunks_slice text ch hch

/-- C7 amended: whenever the segmentation stage produces no oversized
paragraph (so the sentence re-split never fires), every chunk of
`chunk_text`'s output satisfies `original_text[start:end] == text`. -/
theorem c7_offsets_no_resplit (sents : PyStr → List PyStr) (text : PyStr)
    (h : ∀ ch ∈ segmentChunks text, ¬ (512 < ch.text.length ∧ ch.ctype = "paragraph")) :
    ∀ ch ∈ chunkText sents text 512, pySlice text ch.start ch.stop = ch.text := by
  intro ch hch
  unfold chunkText at hch
  rcases List.mem_flatten.mp hch with ⟨l, hl, hchl⟩
  rcases List.mem_map.mp hl with ⟨ch0, hch0, hfeq⟩
  rw [← hfeq] at hchl
  unfold refineOne at hchl
  by_cases h1 : (pyWordCount ch0.text < 5 &&
      !(ch0.ctype = "list_item" || ch0.ctype = "header")) = true
  · rw [if_pos h1] at hchl
    cases hchl
  · rw [if_neg h1] at hchl
    by_cases h2 : (ch0.text.length > 512 && ch0.ctype = "paragraph") = true
    · simp only [Bool.and_eq_true, decide_eq_true_eq] at h2
      exact absurd ⟨by omega, h2.2⟩ (h ch0 hch0)
    · rw [if_neg h2] at hchl
      rw [List.mem_singleton] at hchl
      rw [hchl]
      exact segmentChunks_slice text ch0 hch0

set_option maxRecDepth 20000 in
/-- C7 counterexample: a 553-character two-sentence paragraph goes through the
oversized-paragraph re-split, and the resulting chunks' offsets no longer
slice back to their texts (the recorded spans are off by the accumulator's
leading space). -/
theorem c7_offset_mismatch_cex :
    ∃ ch ∈ chunkText c7Sents c7Text 512, pySlice c7Text ch.start ch.stop ≠ ch.text := by
  decide

/-- C7 witness: the amended offset invariant at a concrete text with no
oversized paragraph. -/
theorem c7_offsets_no_resplit_witness :
    (∀ ch ∈ segmentChunks c8Text, ¬ (512 < ch.text.length ∧ ch.ctype = "paragraph")) ∧
    ∀ ch ∈ chunkText sentsTrivial c8Text 512, pySlice c8Text ch.start ch.stop = ch.text :=
  ⟨by decide, c7_offsets_no_resplit sentsTrivial c8Text (by decide)⟩
